import Mathlib

/-! Verification of the Hierarchical Lifecycle and Scoped Access Engine of
the fast-api-smart-drive repository.

The Python source is shallowly embedded: SQLAlchemy rows become Lean
structures, the database session becomes an explicit `DB` value threaded
through each endpoint, `datetime.utcnow()` becomes an explicit natural-number
clock that is incremented on every call (one tick per `utcnow()` call, so
distinct calls yield distinct but ordered instants), and uncaught Python
exceptions (`TypeError`, `RecursionError`) become `Err.crash` values.  An
endpoint that raises leaves the store unchanged, mirroring the fact that the
per-request session is closed without `commit()` so the transaction rolls
back.  Recursion over the parent-pointer table is given explicit fuel: on an
acyclic parent graph a fuel of `#directories + 1` is never exhausted, while a
cyclic graph exhausts it, mirroring Python's recursion limit.
-/

namespace SmartDrive

/-- Status enumeration from models/models.py (StatusEnum). -/
inductive StatusEnum : Type where
  | ACTIVE
  | ARCHIVED
  | TRASHED
deriving DecidableEq, Repr

/-- The .value attribute of the Python enum members. -/
def StatusEnum.value : StatusEnum → String
  | .ACTIVE => "active"
  | .ARCHIVED => "archived"
  | .TRASHED => "trashed"

/-- Directory row (models/models.py class Directory).  `organization_id` and
`department_id` are non-nullable columns; `parent_id` and the two timestamps
are nullable.  Timestamps are abstract clock instants (Nat). -/
structure Directory : Type where
  id : Nat
  name : String
  is_directory : Bool := true
  parent_id : Option Nat := none
  level : Nat := 0
  path : String := "/"
  status : StatusEnum := .ACTIVE
  archived_at : Option Nat := none
  trashed_at : Option Nat := none
  organization_id : Nat
  department_id : Nat
deriving DecidableEq, Repr

/-- Document row (models/models.py class Document), restricted to the columns
the lifecycle/scope engine reads or writes; the binary payload, mimetype and
category columns are opaque to this core and elided. -/
structure Document : Type where
  id : Nat
  name : String
  directory_id : Option Nat := none
  status : StatusEnum := .ACTIVE
  archived_at : Option Nat := none
  trashed_at : Option Nat := none
  organization_id : Nat
  department_id : Nat
  created_by : Option Nat := none
deriving DecidableEq, Repr

/-- Organization row (id only; other columns unused by the engine). -/
structure Organization : Type where
  id : Nat
deriving DecidableEq, Repr

/-- Department row; `org_id` is a nullable foreign key. -/
structure Department : Type where
  id : Nat
  org_id : Option Nat := none
deriving DecidableEq, Repr

/-- User row (models/models.py class User); `department_id` and
`organization_id` are nullable. -/
structure User : Type where
  id : Nat
  name : String := ""
  department_id : Option Nat := none
  organization_id : Option Nat := none
  role : String := "user"
deriving DecidableEq, Repr

/-- The relational store visible to the engine. -/
structure DB : Type where
  dirs : List Directory
  docs : List Document
  orgs : List Organization := []
  depts : List Department := []
deriving DecidableEq, Repr

/-- Python truthiness of a nullable integer column: `None` and `0` are falsy.
Guards such as `if payload.parent_id:` use this, not an is-None test. -/
def truthy : Option Nat → Bool
  | none => false
  | some n => n != 0

/-- Python `a or b` over nullable integers (used for the org/dept fallback in
create_directory). -/
def orTruthy (a b : Option Nat) : Option Nat :=
  if truthy a then a else b

/-- Errors an endpoint can produce.  `http` is a raised HTTPException;
`crash` is an uncaught Python exception (the framework turns it into a 500
response and the uncommitted transaction rolls back). -/
inductive Err : Type where
  | http (code : Nat) (detail : String)
  | crash (msg : String)
deriving DecidableEq, Repr

/-- Response schema StatusUpdateResponse (connection/schemas.py). -/
structure StatusUpdateResponse : Type where
  success : Bool
  message : String
  affected_items : Nat
deriving DecidableEq, Repr

/-- Request schema BulkActionRequest (connection/schemas.py). -/
structure BulkActionRequest : Type where
  item_ids : List Nat
  item_type : String
deriving DecidableEq, Repr

/-- The two timestamp columns that `update_children_status_recursive` can be
asked to set via `setattr` (its `timestamp_field` string argument). -/
inductive TsField : Type where
  | archived_at
  | trashed_at
deriving DecidableEq, Repr

/-- Effect of `setattr(row, field, t)` for the two timestamp columns. -/
def Directory.setTs (d : Directory) (f : TsField) (t : Nat) : Directory :=
  match f with
  | .archived_at => { d with archived_at := some t }
  | .trashed_at => { d with trashed_at := some t }

/-- Effect of `setattr(row, field, t)` on a document row. -/
def Document.setTs (x : Document) (f : TsField) (t : Nat) : Document :=
  match f with
  | .archived_at => { x with archived_at := some t }
  | .trashed_at => { x with trashed_at := some t }

/-- The status-plus-timestamp mutation the cascade applies to one directory
row: `row.status = status; setattr(row, timestamp_field, timestamp)`. -/
def mutDir (st : StatusEnum) (f : TsField) (t : Nat) (d : Directory) : Directory :=
  Directory.setTs { d with status := st } f t

/-- The same mutation on one document row. -/
def mutDoc (st : StatusEnum) (f : TsField) (t : Nat) (x : Document) : Document :=
  Document.setTs { x with status := st } f t

/-- In-place update of every directory row with the given primary key
(SQLAlchemy mutates the identity-mapped object; rows are keyed by id). -/
def DB.updateDir (db : DB) (i : Nat) (g : Directory → Directory) : DB :=
  { db with dirs := db.dirs.map (fun d => if d.id == i then g d else d) }

/-- In-place update of every document row with the given primary key. -/
def DB.updateDoc (db : DB) (i : Nat) (g : Document → Document) : DB :=
  { db with docs := db.docs.map (fun x => if x.id == i then g x else x) }

/-- Outcome of `setattr(row, timestamp_field, timestamp)` when the field name
may be `None`: `setattr(obj, None, v)` raises
`TypeError: attribute name must be string`.  The restore path passes `None`
as `timestamp_field` (routers/directories.py line 269), so this raises as
soon as the cascade reaches any child row. -/
def setattrCrash : Err := Err.crash "TypeError: attribute name must be string"

/-- The `child_dirs` query of one invocation of
`update_children_status_recursive`, reduced to the primary keys the loop then
works through: every directory row whose `parent_id` equals `parent_id`. -/
def childIdsOf (db : DB) (parent_id : Nat) : List Nat :=
  (db.dirs.filter (fun d => d.parent_id == some parent_id)).map (fun d => d.id)

/-- The document half of one invocation of
`update_children_status_recursive`: every document whose `directory_id`
equals `parent_id` gets `status` and the timestamp field set.  When
`timestamp_field` is `None` the Python loop raises `TypeError` at its first
document (the transaction then rolls back, so partial in-memory mutation is
never visible). -/
def updateDocsOfDir (db : DB) (parent_id : Nat) (status : StatusEnum)
    (timestamp_field : Option TsField) (timestamp : Nat) : Except Err DB :=
  match timestamp_field with
  | none =>
      if (db.docs.filter (fun x => x.directory_id == some parent_id)).isEmpty then
        .ok db
      else
        .error setattrCrash
  | some f =>
      .ok { db with
            docs := db.docs.map (fun x =>
              if x.directory_id == some parent_id then mutDoc status f timestamp x
              else x) }

mutual

/-- Embedding of `update_children_status_recursive` (routers/directories.py
lines 26 to 44).  One `utcnow()` instant is taken per invocation (so per tree
level) and applied to that level's child directories and to the documents
filed directly in `parent_id`.  Child directories are recursed into one at a
time, inside the loop, against the already-mutated store.  `fuel` models the
Python recursion limit. -/
def update_children_status_recursive (fuel : Nat) (db : DB) (clock : Nat)
    (parent_id : Nat) (status : StatusEnum) (timestamp_field : Option TsField) :
    Except Err (DB × Nat) :=
  match fuel with
  | 0 => .error (Err.crash "RecursionError: maximum recursion depth exceeded")
  | fuel + 1 =>
      let timestamp := clock
      let clock := clock + 1
      match updateChildrenLoop fuel (childIdsOf db parent_id) db clock status timestamp_field timestamp with
      | .error e => .error e
      | .ok (db, clock) =>
          match updateDocsOfDir db parent_id status timestamp_field timestamp with
          | .error e => .error e
          | .ok db => .ok (db, clock)
termination_by (fuel, 0)

/-- The `for child_dir in child_dirs` loop of
`update_children_status_recursive`: mutate the child, then recurse into it.
With `timestamp_field = None` the `setattr` raises at the first child. -/
def updateChildrenLoop (fuel : Nat) (ids : List Nat) (db : DB) (clock : Nat)
    (status : StatusEnum) (timestamp_field : Option TsField) (timestamp : Nat) :
    Except Err (DB × Nat) :=
  match ids with
  | [] => .ok (db, clock)
  | i :: rest =>
      match timestamp_field with
      | none => .error setattrCrash
      | some f =>
          let db := db.updateDir i (fun d => mutDir status f timestamp d)
          match update_children_status_recursive fuel db clock i status timestamp_field with
          | .error e => .error e
          | .ok (db, clock) => updateChildrenLoop fuel rest db clock status timestamp_field timestamp
termination_by (fuel, ids.length + 1)

end

/-- Fuel the endpoints run the cascade with: on an acyclic parent graph the
recursion depth is bounded by the number of directory rows, so this fuel is
never exhausted; a parent cycle exhausts it, just as the unbounded Python
recursion would hit the interpreter recursion limit. -/
def DB.fuel (db : DB) : Nat := db.dirs.length + 1

/-- Embedding of `get_accessible_departments` (utils/authorization.py lines
104 to 123).  A principal with no (truthy) organization gets the empty list;
super_admin gets every department; org or department admins get the
departments of their organization; a plain user gets their own department. -/
def get_accessible_departments (user : User) (db : DB) : List Nat :=
  if ¬ truthy user.organization_id then []
  else if user.role == "super_admin" then db.depts.map (fun d => d.id)
  else if user.role == "org_admin" || user.role == "admin" then
    (db.depts.filter (fun d => d.org_id == user.organization_id)).map (fun d => d.id)
  else
    match user.department_id with
    | some n => if n != 0 then [n] else []
    | none => []

/-- Embedding of `get_accessible_organizations` (utils/authorization.py lines
219 to 233).  super_admin gets every organization, with `orgs or [0]`
substituting the reserved sentinel `[0]` if the table is empty; a principal
with a truthy organization gets a singleton; a principal with no
organization gets the sentinel `[0]`. -/
def get_accessible_organizations (user : User) (db : DB) : List Nat :=
  if user.role == "super_admin" then
    let orgs := db.orgs.map (fun o => o.id)
    if orgs.isEmpty then [0] else orgs
  else
    match user.organization_id with
    | some n => if n != 0 then [n] else [0]
    | none => [0]

/-- Embedding of `can_access_directory` (utils/authorization.py lines 78 to
102). -/
def can_access_directory (user : User) (directory : Directory) : Bool :=
  if user.role == "super_admin" then true
  else if ¬ truthy user.organization_id || ¬ truthy user.department_id then
    if directory.organization_id == 0 || directory.department_id == 0 then true
    else user.role == "super_admin"
  else if user.department_id == some directory.department_id then true
  else if user.organization_id == some directory.organization_id &&
      (user.role == "org_admin" || user.role == "admin") then true
  else false

/-- The guard at routers/directories.py line 157: the organization membership
filter of `list_directories` is applied only when the resolved list differs
from the sentinel `[0]`; when it equals the sentinel the filter is skipped. -/
def list_directories_org_filter_skipped (user : User) (db : DB) : Bool :=
  get_accessible_organizations user db == [0]

/-- Embedding of the query core of `list_directories` (routers/directories.py
lines 121 to 163); the string parsing of the `parent_id` query parameter and
the response serialization are elided, the parameter arrives parsed. -/
def list_directories (db : DB) (current_user : User) (parent_id : Option Nat)
    (is_directory : Bool) (status : StatusEnum) : List Directory :=
  let accessible_depts := get_accessible_departments current_user db
  let accessible_orgs := get_accessible_organizations current_user db
  let q := db.dirs.filter (fun d =>
    d.parent_id == parent_id && d.is_directory == is_directory && d.status == status)
  let q := if accessible_orgs ≠ [0]
    then q.filter (fun d => accessible_orgs.contains d.organization_id) else q
  let q := if accessible_depts ≠ [0]
    then q.filter (fun d => accessible_depts.contains d.department_id) else q
  q

/-- Embedding of `list_archived_directories` (routers/directories.py lines
197 to 202): the endpoint takes no principal and applies no scope filter. -/
def list_archived_directories (db : DB) : List Directory :=
  db.dirs.filter (fun d => d.status == StatusEnum.ARCHIVED)

/-- Embedding of `list_trashed_directories` (routers/directories.py lines 205
to 210): again no principal and no scope filter. -/
def list_trashed_directories (db : DB) : List Directory :=
  db.dirs.filter (fun d => d.status == StatusEnum.TRASHED)

/-- The parent guard of `restore_directory` (routers/directories.py lines 257
to 260): with a truthy `parent_id`, restore is refused when the parent row is
missing or not ACTIVE. -/
def parentNotActive (db : DB) (directory : Directory) : Bool :=
  truthy directory.parent_id &&
    match db.dirs.find? (fun d => directory.parent_id == some d.id) with
    | none => true
    | some parent => parent.status != StatusEnum.ACTIVE

/-- Embedding of `archive_directory` (routers/directories.py lines 213 to
240).  Returns the committed store, the advanced clock and the response; an
error leaves the store unchanged (rollback). -/
def archive_directory (db : DB) (clock : Nat) (directory_id : Nat) :
    Except Err (DB × Nat × StatusUpdateResponse) :=
  match db.dirs.find? (fun d => d.id == directory_id) with
  | none => .error (Err.http 404 "Directory not found")
  | some directory =>
      if directory.status != StatusEnum.ACTIVE then
        .error (Err.http 400
          ("Cannot archive directory with status: " ++ directory.status.value))
      else
        let timestamp := clock
        let clock := clock + 1
        let db1 := db.updateDir directory_id (fun d =>
          { d with status := StatusEnum.ARCHIVED, archived_at := some timestamp })
        match update_children_status_recursive db.fuel db1 clock directory_id
            StatusEnum.ARCHIVED (some TsField.archived_at) with
        | .error e => .error e
        | .ok (db2, clock) =>
            .ok (db2, clock,
              { success := true
                message := "Directory '" ++ directory.name ++
                  "' and all its contents have been archived"
                affected_items := 1 })

/-- Embedding of `restore_directory` (routers/directories.py lines 243 to
277).  Note that the cascade is invoked with `timestamp_field = None`. -/
def restore_directory (db : DB) (clock : Nat) (directory_id : Nat) :
    Except Err (DB × Nat × StatusUpdateResponse) :=
  match db.dirs.find? (fun d => d.id == directory_id) with
  | none => .error (Err.http 404 "Directory not found")
  | some directory =>
      if directory.status == StatusEnum.ACTIVE then
        .error (Err.http 400 "Directory is already active")
      else if parentNotActive db directory then
        .error (Err.http 400 "Cannot restore: parent directory is not active")
      else
        let db1 := db.updateDir directory_id (fun d =>
          { d with status := StatusEnum.ACTIVE, archived_at := none, trashed_at := none })
        match update_children_status_recursive db.fuel db1 clock directory_id
            StatusEnum.ACTIVE none with
        | .error e => .error e
        | .ok (db2, clock) =>
            .ok (db2, clock,
              { success := true
                message := "Directory '" ++ directory.name ++
                  "' and all its contents have been restored"
                affected_items := 1 })

/-- Embedding of `move_directory_to_trash` (routers/directories.py lines 280
to 307). -/
def move_directory_to_trash (db : DB) (clock : Nat) (directory_id : Nat) :
    Except Err (DB × Nat × StatusUpdateResponse) :=
  match db.dirs.find? (fun d => d.id == directory_id) with
  | none => .error (Err.http 404 "Directory not found")
  | some directory =>
      if directory.status == StatusEnum.TRASHED then
        .error (Err.http 400 "Directory is already in trash")
      else
        let timestamp := clock
        let clock := clock + 1
        let db1 := db.updateDir directory_id (fun d =>
          { d with status := StatusEnum.TRASHED, trashed_at := some timestamp })
        match update_children_status_recursive db.fuel db1 clock directory_id
            StatusEnum.TRASHED (some TsField.trashed_at) with
        | .error e => .error e
        | .ok (db2, clock) =>
            .ok (db2, clock,
              { success := true
                message := "Directory '" ++ directory.name ++
                  "' and all its contents have been moved to trash"
                affected_items := 1 })

/-- The `for dir_id in request.item_ids` loop of `bulk_archive_directories`
(routers/directories.py lines 359 to 367): a missing row or one that is not
ACTIVE is silently skipped; a qualifying row is archived together with its
subtree and counted. -/
def bulkArchiveDirsLoop (db : DB) (clock : Nat) (ids : List Nat) (acc : Nat) :
    Except Err (DB × Nat × Nat) :=
  match ids with
  | [] => .ok (db, clock, acc)
  | dir_id :: rest =>
      match db.dirs.find? (fun d => d.id == dir_id) with
      | some directory =>
          if directory.status == StatusEnum.ACTIVE then
            let timestamp := clock
            let clock := clock + 1
            let db1 := db.updateDir dir_id (fun d =>
              { d with status := StatusEnum.ARCHIVED, archived_at := some timestamp })
            match update_children_status_recursive db.fuel db1 clock dir_id
                StatusEnum.ARCHIVED (some TsField.archived_at) with
            | .error e => .error e
            | .ok (db2, clock) => bulkArchiveDirsLoop db2 clock rest (acc + 1)
          else bulkArchiveDirsLoop db clock rest acc
      | none => bulkArchiveDirsLoop db clock rest acc

/-- Embedding of `bulk_archive_directories` (routers/directories.py lines 350
to 375). -/
def bulk_archive_directories (db : DB) (clock : Nat) (request : BulkActionRequest) :
    Except Err (DB × Nat × StatusUpdateResponse) :=
  if request.item_type != "directory" then
    .error (Err.http 400 "This endpoint only supports directories")
  else
    match bulkArchiveDirsLoop db clock request.item_ids 0 with
    | .error e => .error e
    | .ok (db, clock, affected_count) =>
        .ok (db, clock,
          { success := true
            message := "Successfully archived " ++ toString affected_count ++ " directories"
            affected_items := affected_count })

/-- The loop of `bulk_trash_directories` (routers/directories.py lines 387 to
395). -/
def bulkTrashDirsLoop (db : DB) (clock : Nat) (ids : List Nat) (acc : Nat) :
    Except Err (DB × Nat × Nat) :=
  match ids with
  | [] => .ok (db, clock, acc)
  | dir_id :: rest =>
      match db.dirs.find? (fun d => d.id == dir_id) with
      | some directory =>
          if directory.status != StatusEnum.TRASHED then
            let timestamp := clock
            let clock := clock + 1
            let db1 := db.updateDir dir_id (fun d =>
              { d with status := StatusEnum.TRASHED, trashed_at := some timestamp })
            match update_children_status_recursive db.fuel db1 clock dir_id
                StatusEnum.TRASHED (some TsField.trashed_at) with
            | .error e => .error e
            | .ok (db2, clock) => bulkTrashDirsLoop db2 clock rest (acc + 1)
          else bulkTrashDirsLoop db clock rest acc
      | none => bulkTrashDirsLoop db clock rest acc

/-- Embedding of `bulk_trash_directories` (routers/directories.py lines 378
to 403). -/
def bulk_trash_directories (db : DB) (clock : Nat) (request : BulkActionRequest) :
    Except Err (DB × Nat × StatusUpdateResponse) :=
  if request.item_type != "directory" then
    .error (Err.http 400 "This endpoint only supports directories")
  else
    match bulkTrashDirsLoop db clock request.item_ids 0 with
    | .error e => .error e
    | .ok (db, clock, affected_count) =>
        .ok (db, clock,
          { success := true
            message := "Successfully moved " ++ toString affected_count ++
              " directories to trash"
            affected_items := affected_count })

/-- The loop of `bulk_restore_directories` (routers/directories.py lines 415
to 430): items that are already ACTIVE or whose parent is not ACTIVE are
silently skipped; a qualifying item is restored and its subtree cascaded with
`timestamp_field = None`. -/
def bulkRestoreDirsLoop (db : DB) (clock : Nat) (ids : List Nat) (acc : Nat) :
    Except Err (DB × Nat × Nat) :=
  match ids with
  | [] => .ok (db, clock, acc)
  | dir_id :: rest =>
      match db.dirs.find? (fun d => d.id == dir_id) with
      | some directory =>
          if directory.status != StatusEnum.ACTIVE then
            if parentNotActive db directory then
              bulkRestoreDirsLoop db clock rest acc
            else
              let db1 := db.updateDir dir_id (fun d =>
                { d with status := StatusEnum.ACTIVE, archived_at := none,
                         trashed_at := none })
              match update_children_status_recursive db.fuel db1 clock dir_id
                  StatusEnum.ACTIVE none with
              | .error e => .error e
              | .ok (db2, clock) => bulkRestoreDirsLoop db2 clock rest (acc + 1)
          else bulkRestoreDirsLoop db clock rest acc
      | none => bulkRestoreDirsLoop db clock rest acc

/-- Embedding of `bulk_restore_directories` (routers/directories.py lines 406
to 438). -/
def bulk_restore_directories (db : DB) (clock : Nat) (request : BulkActionRequest) :
    Except Err (DB × Nat × StatusUpdateResponse) :=
  if request.item_type != "directory" then
    .error (Err.http 400 "This endpoint only supports directories")
  else
    match bulkRestoreDirsLoop db clock request.item_ids 0 with
    | .error e => .error e
    | .ok (db, clock, affected_count) =>
        .ok (db, clock,
          { success := true
            message := "Successfully restored " ++ toString affected_count ++ " directories"
            affected_items := affected_count })

/-- Embedding of `archive_document` (routers/documents.py lines 1094 to
1117).  The endpoint takes no principal and performs no scope check. -/
def archive_document (db : DB) (clock : Nat) (document_id : Nat) :
    Except Err (DB × Nat × StatusUpdateResponse) :=
  match db.docs.find? (fun x => x.id == document_id) with
  | none => .error (Err.http 404 "Document not found")
  | some document =>
      if document.status != StatusEnum.ACTIVE then
        .error (Err.http 400
          ("Cannot archive document with status: " ++ document.status.value))
      else
        let timestamp := clock
        let db1 := db.updateDoc document_id (fun x =>
          { x with status := StatusEnum.ARCHIVED, archived_at := some timestamp })
        .ok (db1, clock + 1,
          { success := true
            message := "Document '" ++ document.name ++ "' has been archived"
            affected_items := 1 })

/-- Embedding of `restore_document` (routers/documents.py lines 1120 to
1150), including the directory-must-be-ACTIVE guard. -/
def restore_document (db : DB) (clock : Nat) (document_id : Nat) :
    Except Err (DB × Nat × StatusUpdateResponse) :=
  match db.docs.find? (fun x => x.id == document_id) with
  | none => .error (Err.http 404 "Document not found")
  | some document =>
      if document.status == StatusEnum.ACTIVE then
        .error (Err.http 400 "Document is already active")
      else if truthy document.directory_id &&
          (match db.dirs.find? (fun d => document.directory_id == some d.id) with
           | none => true
           | some directory => directory.status != StatusEnum.ACTIVE) then
        .error (Err.http 400 "Cannot restore: parent directory is not active")
      else
        let db1 := db.updateDoc document_id (fun x =>
          { x with status := StatusEnum.ACTIVE, archived_at := none, trashed_at := none })
        .ok (db1, clock,
          { success := true
            message := "Document '" ++ document.name ++ "' has been restored"
            affected_items := 1 })

/-- Embedding of `move_document_to_trash` (routers/documents.py lines 1153 to
1175).  `archived_at` is not cleared. -/
def move_document_to_trash (db : DB) (clock : Nat) (document_id : Nat) :
    Except Err (DB × Nat × StatusUpdateResponse) :=
  match db.docs.find? (fun x => x.id == document_id) with
  | none => .error (Err.http 404 "Document not found")
  | some document =>
      if document.status == StatusEnum.TRASHED then
        .error (Err.http 400 "Document is already in trash")
      else
        let timestamp := clock
        let db1 := db.updateDoc document_id (fun x =>
          { x with status := StatusEnum.TRASHED, trashed_at := some timestamp })
        .ok (db1, clock + 1,
          { success := true
            message := "Document '" ++ document.name ++ "' has been moved to trash"
            affected_items := 1 })

/-- Embedding of `bulk_archive_documents` (routers/documents.py lines 1198 to
1222): one set-based UPDATE of every targeted document that is ACTIVE, with
one shared `utcnow()` timestamp; the row count is returned. -/
def bulk_archive_documents (db : DB) (clock : Nat) (request : BulkActionRequest) :
    Except Err (DB × Nat × StatusUpdateResponse) :=
  if request.item_type != "document" then
    .error (Err.http 400 "This endpoint only supports documents")
  else
    let timestamp := clock
    let qualifies := fun (x : Document) =>
      request.item_ids.contains x.id && x.status == StatusEnum.ACTIVE
    let affected_count := (db.docs.filter qualifies).length
    let db1 := { db with docs := db.docs.map (fun x =>
      if qualifies x then
        { x with status := StatusEnum.ARCHIVED, archived_at := some timestamp }
      else x) }
    .ok (db1, clock + 1,
      { success := true
        message := "Successfully archived " ++ toString affected_count ++ " documents"
        affected_items := affected_count })

/-- Embedding of `bulk_trash_documents` (routers/documents.py lines 1225 to
1249): a set-based UPDATE of every targeted document not already TRASHED. -/
def bulk_trash_documents (db : DB) (clock : Nat) (request : BulkActionRequest) :
    Except Err (DB × Nat × StatusUpdateResponse) :=
  if request.item_type != "document" then
    .error (Err.http 400 "This endpoint only supports documents")
  else
    let timestamp := clock
    let qualifies := fun (x : Document) =>
      request.item_ids.contains x.id && x.status != StatusEnum.TRASHED
    let affected_count := (db.docs.filter qualifies).length
    let db1 := { db with docs := db.docs.map (fun x =>
      if qualifies x then
        { x with status := StatusEnum.TRASHED, trashed_at := some timestamp }
      else x) }
    .ok (db1, clock + 1,
      { success := true
        message := "Successfully moved " ++ toString affected_count ++ " documents to trash"
        affected_items := affected_count })

/-- Embedding of `bulk_restore_documents` (routers/documents.py lines 1252 to
1297): targeted non-ACTIVE documents whose directory is missing or not ACTIVE
are skipped; the rest are restored in one set-based UPDATE clearing both
timestamps. -/
def bulk_restore_documents (db : DB) (clock : Nat) (request : BulkActionRequest) :
    Except Err (DB × Nat × StatusUpdateResponse) :=
  if request.item_type != "document" then
    .error (Err.http 400 "This endpoint only supports documents")
  else
    let candidates := db.docs.filter (fun x =>
      request.item_ids.contains x.id && x.status != StatusEnum.ACTIVE)
    let valid := candidates.filter (fun x =>
      ¬ (truthy x.directory_id &&
        (match db.dirs.find? (fun d => x.directory_id == some d.id) with
         | none => true
         | some directory => directory.status != StatusEnum.ACTIVE)))
    let valid_doc_ids := valid.map (fun x => x.id)
    let affected_count := valid.length
    let db1 := { db with docs := db.docs.map (fun x =>
      if valid_doc_ids.contains x.id then
        { x with status := StatusEnum.ACTIVE, archived_at := none, trashed_at := none }
      else x) }
    .ok (db1, clock,
      { success := true
        message := "Successfully restored " ++ toString affected_count ++ " documents"
        affected_items := affected_count })

/-- Python `s.rstrip("/")`: drop every trailing slash. -/
def rstripSlash (s : String) : String :=
  String.mk ((s.toList.reverse.dropWhile (fun c => c == '/')).reverse)

/-- Request schema DirectoryCreate (connection/schemas.py). -/
structure DirectoryCreate : Type where
  name : String
  parent_id : Option Nat := none
  is_directory : Bool := true
  department_id : Option Nat := none
  organization_id : Option Nat := none
deriving DecidableEq, Repr

/-- Embedding of `create_directory` (routers/directories.py lines 47 to 119).
`new_id` models the primary key the database assigns on commit.  The org and
dept fall back from the payload to the principal via Python `or`; the parent,
when the payload carries a truthy `parent_id`, must exist and pass
`can_access_directory`, but its lifecycle `status` is never inspected.  The
new row is ACTIVE at `level = parent.level + 1` with
`path = parent.path.rstrip("/") + "/" + name`. -/
def create_directory (db : DB) (payload : DirectoryCreate) (current_user : User)
    (new_id : Nat) : Except Err (DB × Directory) :=
  let org_id := orTruthy payload.organization_id current_user.organization_id
  let dept_id := orTruthy payload.department_id current_user.department_id
  match org_id, dept_id with
  | some o, some dp =>
      if o == 0 || dp == 0 then
        .error (Err.http 400 "User must be assigned to a department and organization")
      else
        let parentCheck : Except Err Unit :=
          if truthy payload.parent_id then
            match db.dirs.find? (fun d => payload.parent_id == some d.id) with
            | none => .error (Err.http 404 "Parent not found")
            | some parent =>
                if ¬ can_access_directory current_user parent then
                  .error (Err.http 403 "Access denied to parent directory")
                else .ok ()
          else .ok ()
        match parentCheck with
        | .error e => .error e
        | .ok _ =>
            let lp : Except Err (Nat × String) :=
              if truthy payload.parent_id then
                match db.dirs.find? (fun d => payload.parent_id == some d.id) with
                | some parent =>
                    .ok (parent.level + 1, rstripSlash parent.path ++ "/" ++ payload.name)
                | none =>
                    .error (Err.crash "AttributeError: NoneType has no attribute level")
              else .ok (0, "/")
            match lp with
            | .error e => .error e
            | .ok (level, path) =>
                let d : Directory :=
                  { id := new_id
                    name := payload.name
                    parent_id := payload.parent_id
                    level := level
                    path := path
                    is_directory := true
                    status := StatusEnum.ACTIVE
                    organization_id := o
                    department_id := dp }
                .ok ({ db with dirs := db.dirs ++ [d] }, d)
  | _, _ => .error (Err.http 400 "User must be assigned to a department and organization")

/-- A share capability record: the JSON file written under
`temp/share_tokens/<token>.json` by `create_share_link`
(routers/documents.py lines 1546 to 1560).  Timestamps are abstract instants;
`expires_at = created_at + expires_in` models
`now + timedelta(days=expires_in)` with one clock unit per day. -/
structure ShareData : Type where
  document_id : Nat
  share_token : String
  expires_at : Nat
  created_by : Nat
  created_at : Nat
deriving DecidableEq, Repr

/-- The file-backed token store: one record per token file.  Writing a file
overwrites any record with the same token name. -/
abbrev ShareStore := List ShareData

/-- Embedding of `create_share_link` (routers/documents.py lines 1515 to
1566).  The caller must own the document or have its organization and
department in scope; the cryptographically random token is a parameter. -/
def create_share_link (db : DB) (store : ShareStore) (now : Nat) (current_user : User)
    (document_id : Nat) (expires_in : Nat) (share_token : String) :
    Except Err (ShareStore × ShareData) :=
  match db.docs.find? (fun x => x.id == document_id) with
  | none => .error (Err.http 404 "Document not found")
  | some document =>
      let allowed :=
        if document.created_by == some current_user.id then true
        else
          let accessible_depts := get_accessible_departments current_user db
          let accessible_orgs := get_accessible_organizations current_user db
          accessible_orgs.contains document.organization_id &&
            accessible_depts.contains document.department_id
      if ¬ allowed then .error (Err.http 403 "You don't have access to this document")
      else
        let share_data : ShareData :=
          { document_id := document_id
            share_token := share_token
            expires_at := now + expires_in
            created_by := current_user.id
            created_at := now }
        .ok (store.filter (fun s => s.share_token != share_token) ++ [share_data],
          share_data)

/-- Embedding of the token resolution of `preview_shared_document`
(routers/documents.py lines 1575 to 1611): a missing token file is NotFound;
a token strictly past its expiry is Expired and its file is removed; an
unexpired token resolves to the shared document id (the rendering of the
document bytes is beyond this core).  The possibly-shrunk store is returned
alongside the outcome. -/
def preview_shared_document (store : ShareStore) (db : DB) (now : Nat)
    (share_token : String) : ShareStore × Except Err Nat :=
  match store.find? (fun s => s.share_token == share_token) with
  | none => (store, .error (Err.http 404 "Share link not found or has been deleted"))
  | some share_data =>
      if share_data.expires_at < now then
        (store.filter (fun s => s.share_token != share_token),
          .error (Err.http 403 "Share link has expired"))
      else
        match db.docs.find? (fun x => x.id == share_data.document_id) with
        | none => (store, .error (Err.http 404 "Document not found"))
        | some _document => (store, .ok share_data.document_id)

/-- Embedding of `revoke_share_link` (routers/documents.py lines 1818 to
1833): a missing token file is NotFound, otherwise the file is removed
unconditionally. -/
def revoke_share_link (store : ShareStore) (share_token : String) :
    ShareStore × Except Err Unit :=
  if store.any (fun s => s.share_token == share_token) then
    (store.filter (fun s => s.share_token != share_token), .ok ())
  else
    (store, .error (Err.http 404 "Share link not found"))

/-! Specification-side vocabulary for the theorems. -/

/-- The tree-shape data of a directory row: primary key, parent pointer and
stored depth.  Lifecycle mutations never change it. -/
structure DirSkel : Type where
  id : Nat
  parent_id : Option Nat
  level : Nat
deriving DecidableEq, Repr

/-- Projection of a row to its tree-shape data. -/
def Directory.skel (d : Directory) : DirSkel :=
  { id := d.id, parent_id := d.parent_id, level := d.level }

/-- Tree-shape data of the whole directory table. -/
def dirSkels (db : DB) : List DirSkel := db.dirs.map Directory.skel

/-- Strict descendant relation over the parent-pointer table: `x` is reached
from `root` by one or more child steps. -/
inductive DescS (sk : List DirSkel) (root : Nat) : Nat → Prop where
  | child (s : DirSkel) (hs : s ∈ sk) (hp : s.parent_id = some root) : DescS sk root s.id
  | step (s : DirSkel) (m : Nat) (hm : DescS sk root m) (hs : s ∈ sk)
      (hp : s.parent_id = some m) : DescS sk root s.id

/-- The stored-level invariant of the data model (spec section 3): a child's
`level` is its parent's `level` plus one.  It holds at creation and no
operation rewrites levels. -/
def HLvl (sk : List DirSkel) : Prop :=
  ∀ s ∈ sk, ∀ p ∈ sk, s.parent_id = some p.id → s.level = p.level + 1

/-- Number of directory rows whose stored level exceeds `l`; the cascade's
recursion depth below a node of level `l` is bounded by it. -/
def countAbove (sk : List DirSkel) (l : Nat) : Nat :=
  (sk.filter (fun s => l < s.level)).length

/-- Per-row outcome of a timestamping cascade pass over the directory table:
a row whose id satisfies the target predicate is exactly the old row with
`status` set and the selected timestamp field set to some instant inside the
window; any other row is untouched. -/
def DirOutcome (st : StatusEnum) (f : TsField) (lo hi : Nat) (P : Nat → Prop)
    (d d' : Directory) : Prop :=
  (P d.id → ∃ t, lo ≤ t ∧ t < hi ∧ d' = mutDir st f t d) ∧ (¬ P d.id → d' = d)

/-- Per-row outcome for the document table: a document whose `directory_id`
points into the target set is mutated, all others are untouched. -/
def DocOutcome (st : StatusEnum) (f : TsField) (lo hi : Nat) (R : Nat → Prop)
    (x x' : Document) : Prop :=
  ((∃ q, x.directory_id = some q ∧ R q) → ∃ t, lo ≤ t ∧ t < hi ∧ x' = mutDoc st f t x) ∧
  (¬ (∃ q, x.directory_id = some q ∧ R q) → x' = x)

/-- Status-to-timestamp consistency of one row as the code actually maintains
it: an ACTIVE row has no timestamps, an ARCHIVED row has `archived_at` set, a
TRASHED row has `trashed_at` set (`archived_at` may additionally survive on a
row trashed from ARCHIVED). -/
def TsOk (st : StatusEnum) (a t : Option Nat) : Prop :=
  match st with
  | .ACTIVE => a = none ∧ t = none
  | .ARCHIVED => a ≠ none
  | .TRASHED => t ≠ none

/-- The timestamp consistency invariant over a whole store. -/
def DBTsOk (db : DB) : Prop :=
  (∀ d ∈ db.dirs, TsOk d.status d.archived_at d.trashed_at) ∧
  (∀ x ∈ db.docs, TsOk x.status x.archived_at x.trashed_at)

/-- Modelled from the spec: the "all" case of the organization scope, the one
situation section 4.1 allows a membership filter to be skipped for.  Per the
resolver contract only a super_admin principal resolves to the unrestricted
organization set. -/
def specScopeAllCase (user : User) : Bool :=
  user.role == "super_admin"

/-- Induction statement for the successful cascade: with the level invariant,
a correctly-levelled target and enough fuel, one invocation of
`update_children_status_recursive` with a real timestamp field succeeds and
performs exactly the per-row outcomes described by `DirOutcome` and
`DocOutcome`, targeting the strict descendants of `pid` and the documents
filed in `pid` or a strict descendant, with every written instant inside the
call window. -/
def CascadeOkStmt (st : StatusEnum) (f : TsField) (fuel : Nat) : Prop :=
  ∀ (db : DB) (clock pid l : Nat),
    HLvl (dirSkels db) →
    (∀ s ∈ dirSkels db, s.parent_id = some pid → s.level = l + 1) →
    countAbove (dirSkels db) l < fuel →
    ∃ db' clock',
      update_children_status_recursive fuel db clock pid st (some f) =
        .ok (db', clock') ∧
      clock ≤ clock' ∧
      List.Forall₂ (DirOutcome st f clock clock' (DescS (dirSkels db) pid))
        db.dirs db'.dirs ∧
      List.Forall₂
        (DocOutcome st f clock clock' (fun q => q = pid ∨ DescS (dirSkels db) pid q))
        db.docs db'.docs

/-- Induction statement for the child loop of the cascade: the ids are
correctly-levelled rows, the shared level timestamp `ts` precedes the clock,
and the loop mutates exactly the listed rows, their strict descendants, and
the documents filed in those. -/
def CascadeLoopStmt (st : StatusEnum) (f : TsField) (fuel : Nat) : Prop :=
  ∀ (ids : List Nat) (db : DB) (clock ts l : Nat),
    HLvl (dirSkels db) →
    (∀ i ∈ ids, ∃ s ∈ dirSkels db, s.id = i ∧ s.level = l + 1) →
    countAbove (dirSkels db) l < fuel + 1 →
    ts < clock →
    ∃ db' clock',
      updateChildrenLoop fuel ids db clock st (some f) ts = .ok (db', clock') ∧
      clock ≤ clock' ∧
      List.Forall₂
        (DirOutcome st f ts clock'
          (fun x => x ∈ ids ∨ ∃ i ∈ ids, DescS (dirSkels db) i x))
        db.dirs db'.dirs ∧
      List.Forall₂
        (DocOutcome st f ts clock'
          (fun q => ∃ i ∈ ids, (q = i ∨ DescS (dirSkels db) i q)))
        db.docs db'.docs

/-! Concrete stores and principals used by counterexample and witness
theorems. -/

/-- A principal with no organization assigned (the C1 scenario). -/
def u_noorg : User :=
  { id := 7, name := "unassigned", department_id := some 5,
    organization_id := none, role := "user" }

/-- A store with two organizations, one department and one directory, for the
scope-sentinel scenario. -/
def db_scope : DB :=
  { dirs := [{ id := 1, name := "d", organization_id := 7, department_id := 5 }]
    docs := []
    orgs := [{ id := 1 }, { id := 2 }]
    depts := [{ id := 5, org_id := some 1 }] }

/-- An archived root directory with no parent. -/
def dir_c2 : Directory :=
  { id := 1, name := "a", status := StatusEnum.ARCHIVED, archived_at := some 5,
    organization_id := 1, department_id := 1 }

/-- An archived document filed in directory 1. -/
def doc_c2 : Document :=
  { id := 10, name := "x", directory_id := some 1, status := StatusEnum.ARCHIVED,
    archived_at := some 5, organization_id := 1, department_id := 1 }

/-- Store where an archived directory contains one archived document; its
restore precondition holds yet restoring raises TypeError. -/
def db_restore_doc : DB := { dirs := [dir_c2], docs := [doc_c2] }

/-- Store where archived directory 1 has an archived child directory 2. -/
def db_restore_child : DB :=
  { dirs := [dir_c2,
             { id := 2, name := "b", parent_id := some 1, level := 1, path := "/b",
               status := StatusEnum.ARCHIVED, archived_at := some 5,
               organization_id := 1, department_id := 1 }]
    docs := [] }

/-- A single ACTIVE root directory. -/
def db_single_active : DB :=
  { dirs := [{ id := 1, name := "a", organization_id := 1, department_id := 1 }]
    docs := [] }

/-- The previous store after `archive_directory` at clock 0. -/
def db_single_archived : DB :=
  { dirs := [{ id := 1, name := "a", status := StatusEnum.ARCHIVED,
               archived_at := some 0, organization_id := 1, department_id := 1 }]
    docs := [] }

/-- The same store after additionally trashing at clock 2: both timestamps
are now set. -/
def db_single_both : DB :=
  { dirs := [{ id := 1, name := "a", status := StatusEnum.TRASHED,
               archived_at := some 0, trashed_at := some 2,
               organization_id := 1, department_id := 1 }]
    docs := [] }

/-- ARCHIVED parent 1 with an ACTIVE leaf child 2 (the C7 scenario). -/
def db_c7 : DB :=
  { dirs := [{ id := 1, name := "p", status := StatusEnum.ARCHIVED,
               archived_at := some 3, organization_id := 1, department_id := 1 },
             { id := 2, name := "d", parent_id := some 1, level := 1, path := "/d",
               organization_id := 1, department_id := 1 }]
    docs := [] }

/-- The C7 store after `archive_directory` of directory 2 at clock 0. -/
def db_c7_archived : DB :=
  { dirs := [{ id := 1, name := "p", status := StatusEnum.ARCHIVED,
               archived_at := some 3, organization_id := 1, department_id := 1 },
             { id := 2, name := "d", parent_id := some 1, level := 1, path := "/d",
               status := StatusEnum.ARCHIVED, archived_at := some 0,
               organization_id := 1, department_id := 1 }]
    docs := [] }

/-- An archived directory belonging to organization 2, department 9. -/
def dir_c8 : Directory :=
  { id := 4, name := "secret", status := StatusEnum.ARCHIVED, archived_at := some 1,
    organization_id := 2, department_id := 9 }

/-- Store for the C8 scenario: two organizations, one archived directory in
organization 2. -/
def db_c8 : DB :=
  { dirs := [dir_c8], docs := [], orgs := [{ id := 1 }, { id := 2 }]
    depts := [{ id := 1, org_id := some 1 }] }

/-- A plain user of organization 1, department 1. -/
def u_c8 : User :=
  { id := 3, name := "alice", department_id := some 1, organization_id := some 1,
    role := "user" }

/-- The tree of the cascade scenario: root 1 with children 2 and 4, grandchild
3 under 2, an unrelated root 5, a document filed in 2 and an unrelated
document. -/
def db_tree : DB :=
  { dirs := [{ id := 1, name := "R", organization_id := 1, department_id := 1 },
             { id := 2, name := "A", parent_id := some 1, level := 1, path := "/A",
               organization_id := 1, department_id := 1 },
             { id := 3, name := "B", parent_id := some 2, level := 2, path := "/A/B",
               organization_id := 1, department_id := 1 },
             { id := 4, name := "C", parent_id := some 1, level := 1, path := "/C",
               organization_id := 1, department_id := 1 },
             { id := 5, name := "other", organization_id := 1, department_id := 1 }]
    docs := [{ id := 9, name := "X", directory_id := some 2,
               organization_id := 1, department_id := 1 },
             { id := 11, name := "Y", directory_id := some 5,
               organization_id := 1, department_id := 1 }] }

/-- A document whose creator is user 3 (share scenario). -/
def doc_c9 : Document :=
  { id := 5, name := "doc", organization_id := 1, department_id := 1,
    created_by := some 3 }

/-- Store holding only the shared document. -/
def db_c9 : DB := { dirs := [], docs := [doc_c9] }

/-- The creator of `doc_c9`. -/
def u_c9 : User :=
  { id := 3, name := "carol", department_id := some 1, organization_id := some 1,
    role := "user" }

/-- A share record for token "tok" created at day 100 with a 7-day ttl. -/
def rec_c9 : ShareData :=
  { document_id := 5, share_token := "tok", expires_at := 107,
    created_by := 3, created_at := 100 }

/-- The ARCHIVED parent row of the creation scenario. -/
def dir_c10_parent : Directory :=
  { id := 1, name := "p", status := StatusEnum.ARCHIVED, archived_at := some 2,
    path := "/p", organization_id := 1, department_id := 1 }

/-- An ARCHIVED parent directory for the creation scenario. -/
def db_c10 : DB := { dirs := [dir_c10_parent], docs := [] }

/-- A plain user in the same department as the archived parent. -/
def u_c10 : User :=
  { id := 2, name := "bob", department_id := some 1, organization_id := some 1,
    role := "user" }

/-- Creation payload targeting the archived parent. -/
def payload_c10 : DirectoryCreate := { name := "kid", parent_id := some 1 }

/-! Helper lemmas. -/

theorem mutDir_skel (st : StatusEnum) (f : TsField) (t : Nat) (d : Directory) :
    (mutDir st f t d).skel = d.skel := by
  cases f <;> rfl

theorem mutDir_mutDir (st : StatusEnum) (f : TsField) (t₁ t₂ : Nat) (d : Directory) :
    mutDir st f t₂ (mutDir st f t₁ d) = mutDir st f t₂ d := by
  cases f <;> rfl

theorem mutDoc_dirid (st : StatusEnum) (f : TsField) (t : Nat) (x : Document) :
    (mutDoc st f t x).directory_id = x.directory_id := by
  cases f <;> rfl

theorem mutDoc_mutDoc (st : StatusEnum) (f : TsField) (t₁ t₂ : Nat) (x : Document) :
    mutDoc st f t₂ (mutDoc st f t₁ x) = mutDoc st f t₂ x := by
  cases f <;> rfl

theorem dirOutcome_skel {st : StatusEnum} {f : TsField} {lo hi : Nat} {P : Nat → Prop}
    {d d' : Directory} (h : DirOutcome st f lo hi P d d') : d'.skel = d.skel := by
  by_cases hp : P d.id
  · obtain ⟨t, _, _, ht⟩ := h.1 hp
    rw [ht, mutDir_skel]
  · rw [h.2 hp]

theorem dirOutcome_id {st : StatusEnum} {f : TsField} {lo hi : Nat} {P : Nat → Prop}
    {d d' : Directory} (h : DirOutcome st f lo hi P d d') : d'.id = d.id :=
  congrArg DirSkel.id (dirOutcome_skel h)

theorem docOutcome_dirid {st : StatusEnum} {f : TsField} {lo hi : Nat} {R : Nat → Prop}
    {x x' : Document} (h : DocOutcome st f lo hi R x x') :
    x'.directory_id = x.directory_id := by
  by_cases hp : ∃ q, x.directory_id = some q ∧ R q
  · obtain ⟨t, _, _, ht⟩ := h.1 hp
    rw [ht, mutDoc_dirid]
  · rw [h.2 hp]

theorem dirOutcome_comp {st : StatusEnum} {f : TsField} {lo₁ hi₁ lo₂ hi₂ : Nat}
    {P₁ P₂ : Nat → Prop} {d d₁ d₂ : Directory}
    (h₁ : DirOutcome st f lo₁ hi₁ P₁ d d₁) (h₂ : DirOutcome st f lo₂ hi₂ P₂ d₁ d₂)
    (hlo : lo₁ ≤ lo₂) (hhi : hi₁ ≤ hi₂) :
    DirOutcome st f lo₁ hi₂ (fun x => P₁ x ∨ P₂ x) d d₂ := by
  have hid : d₁.id = d.id := dirOutcome_id h₁
  constructor
  · intro hp
    by_cases hp₂ : P₂ d.id
    · obtain ⟨t₂, h₂lo, h₂hi, he₂⟩ := h₂.1 (hid ▸ hp₂)
      refine ⟨t₂, le_trans hlo h₂lo, h₂hi, ?_⟩
      by_cases hp₁ : P₁ d.id
      · obtain ⟨t₁, _, _, he₁⟩ := h₁.1 hp₁
        rw [he₂, he₁, mutDir_mutDir]
      · rw [he₂, h₁.2 hp₁]
    · have hp₁ : P₁ d.id := by tauto
      obtain ⟨t₁, h₁lo, h₁hi, he₁⟩ := h₁.1 hp₁
      have : d₂ = d₁ := h₂.2 (by rw [hid]; exact hp₂)
      exact ⟨t₁, h₁lo, lt_of_lt_of_le h₁hi hhi, by rw [this, he₁]⟩
  · intro hp
    have hp₁ : ¬ P₁ d.id := fun h => hp (Or.inl h)
    have hp₂ : ¬ P₂ d.id := fun h => hp (Or.inr h)
    rw [h₂.2 (by rw [hid]; exact hp₂), h₁.2 hp₁]

theorem docOutcome_comp {st : StatusEnum} {f : TsField} {lo₁ hi₁ lo₂ hi₂ : Nat}
    {R₁ R₂ : Nat → Prop} {x x₁ x₂ : Document}
    (h₁ : DocOutcome st f lo₁ hi₁ R₁ x x₁) (h₂ : DocOutcome st f lo₂ hi₂ R₂ x₁ x₂)
    (hlo : lo₁ ≤ lo₂) (hhi : hi₁ ≤ hi₂) :
    DocOutcome st f lo₁ hi₂ (fun q => R₁ q ∨ R₂ q) x x₂ := by
  have hdir : x₁.directory_id = x.directory_id := docOutcome_dirid h₁
  constructor
  · rintro ⟨q, hq, hr⟩
    by_cases hp₂ : ∃ q, x.directory_id = some q ∧ R₂ q
    · obtain ⟨t₂, h₂lo, h₂hi, he₂⟩ := h₂.1 (by rw [hdir]; exact hp₂)
      refine ⟨t₂, le_trans hlo h₂lo, h₂hi, ?_⟩
      by_cases hp₁ : ∃ q, x.directory_id = some q ∧ R₁ q
      · obtain ⟨t₁, _, _, he₁⟩ := h₁.1 hp₁
        rw [he₂, he₁, mutDoc_mutDoc]
      · rw [he₂, h₁.2 hp₁]
    · have hr₁ : R₁ q := by
        cases hr with
        | inl h => exact h
        | inr h => exact absurd ⟨q, hq, h⟩ hp₂
      obtain ⟨t₁, h₁lo, h₁hi, he₁⟩ := h₁.1 ⟨q, hq, hr₁⟩
      have : x₂ = x₁ := h₂.2 (by rw [hdir]; exact hp₂)
      exact ⟨t₁, h₁lo, lt_of_lt_of_le h₁hi hhi, by rw [this, he₁]⟩
  · intro hp
    have hp₁ : ¬ ∃ q, x.directory_id = some q ∧ R₁ q := by
      rintro ⟨q, hq, hr⟩; exact hp ⟨q, hq, Or.inl hr⟩
    have hp₂ : ¬ ∃ q, x.directory_id = some q ∧ R₂ q := by
      rintro ⟨q, hq, hr⟩; exact hp ⟨q, hq, Or.inr hr⟩
    rw [h₂.2 (by rw [hdir]; exact hp₂), h₁.2 hp₁]

theorem dirOutcome_mono {st : StatusEnum} {f : TsField} {lo hi lo' hi' : Nat}
    {P Q : Nat → Prop} {d d' : Directory} (h : DirOutcome st f lo hi P d d')
    (hq : ∀ x, Q x ↔ P x) (hlo : lo' ≤ lo) (hhi : hi ≤ hi') :
    DirOutcome st f lo' hi' Q d d' := by
  constructor
  · intro hp
    obtain ⟨t, h1, h2, h3⟩ := h.1 ((hq d.id).mp hp)
    exact ⟨t, le_trans hlo h1, lt_of_lt_of_le h2 hhi, h3⟩
  · intro hp
    exact h.2 (fun hx => hp ((hq d.id).mpr hx))

theorem docOutcome_mono {st : StatusEnum} {f : TsField} {lo hi lo' hi' : Nat}
    {R Q : Nat → Prop} {x x' : Document} (h : DocOutcome st f lo hi R x x')
    (hq : ∀ q, Q q ↔ R q) (hlo : lo' ≤ lo) (hhi : hi ≤ hi') :
    DocOutcome st f lo' hi' Q x x' := by
  constructor
  · rintro ⟨q, h1, h2⟩
    obtain ⟨t, ha, hb, hc⟩ := h.1 ⟨q, h1, (hq q).mp h2⟩
    exact ⟨t, le_trans hlo ha, lt_of_lt_of_le hb hhi, hc⟩
  · rintro hp
    refine h.2 ?_
    rintro ⟨q, h1, h2⟩
    exact hp ⟨q, h1, (hq q).mpr h2⟩

theorem forall2_trans {α β γ : Type} {R : α → β → Prop} {S : β → γ → Prop}
    {T : α → γ → Prop} (h : ∀ a b c, R a b → S b c → T a c) :
    ∀ {l₁ : List α} {l₂ : List β} {l₃ : List γ},
      List.Forall₂ R l₁ l₂ → List.Forall₂ S l₂ l₃ → List.Forall₂ T l₁ l₃ := by
  intro l₁ l₂ l₃ h₁ h₂
  induction h₁ generalizing l₃ with
  | nil => cases h₂; exact List.Forall₂.nil
  | cons hr _ ih =>
      cases h₂ with
      | cons hs ht => exact List.Forall₂.cons (h _ _ _ hr hs) (ih ht)

theorem forall2_map_self {α : Type} (g : α → α) (l : List α) :
    List.Forall₂ (fun a b => b = g a) l (l.map g) := by
  induction l with
  | nil => exact List.Forall₂.nil
  | cons a t ih => exact List.Forall₂.cons rfl ih

theorem forall2_dirOutcome_refl {st : StatusEnum} {f : TsField} {lo hi : Nat}
    {P : Nat → Prop} (hP : ∀ x, ¬ P x) (l : List Directory) :
    List.Forall₂ (DirOutcome st f lo hi P) l l := by
  induction l with
  | nil => exact List.Forall₂.nil
  | cons a t ih =>
      exact List.Forall₂.cons ⟨fun hp => absurd hp (hP _), fun _ => rfl⟩ ih

theorem forall2_docOutcome_refl {st : StatusEnum} {f : TsField} {lo hi : Nat}
    {R : Nat → Prop} (hR : ∀ q, ¬ R q) (l : List Document) :
    List.Forall₂ (DocOutcome st f lo hi R) l l := by
  induction l with
  | nil => exact List.Forall₂.nil
  | cons a t ih =>
      refine List.Forall₂.cons ⟨?_, fun _ => rfl⟩ ih
      rintro ⟨q, _, hq⟩
      exact absurd hq (hR q)

theorem skels_eq_of_forall2_list {st : StatusEnum} {f : TsField} {lo hi : Nat}
    {P : Nat → Prop} {l l' : List Directory}
    (h : List.Forall₂ (DirOutcome st f lo hi P) l l') :
    l'.map Directory.skel = l.map Directory.skel := by
  induction h with
  | nil => rfl
  | cons hr _ ih => simp only [List.map_cons, ih, dirOutcome_skel hr]

theorem skels_eq_of_forall2 {st : StatusEnum} {f : TsField} {lo hi : Nat}
    {P : Nat → Prop} {db db' : DB}
    (h : List.Forall₂ (DirOutcome st f lo hi P) db.dirs db'.dirs) :
    dirSkels db' = dirSkels db :=
  skels_eq_of_forall2_list h

theorem descS_trans {sk : List DirSkel} {a b c : Nat}
    (h₁ : DescS sk a b) (h₂ : DescS sk b c) : DescS sk a c := by
  induction h₂ with
  | child s hs hp => exact DescS.step s b h₁ hs hp
  | step s m _ hs hp ih => exact DescS.step s m ih hs hp

theorem descS_iff {sk : List DirSkel} {pid x : Nat} :
    DescS sk pid x ↔ ∃ s ∈ sk, s.parent_id = some pid ∧ (x = s.id ∨ DescS sk s.id x) := by
  constructor
  · intro h
    induction h with
    | child s hs hp => exact ⟨s, hs, hp, Or.inl rfl⟩
    | step s m _ hs hp ih =>
        obtain ⟨c, hc, hcp, hd⟩ := ih
        refine ⟨c, hc, hcp, Or.inr ?_⟩
        cases hd with
        | inl he => exact DescS.child s hs (he ▸ hp)
        | inr hd => exact DescS.step s m hd hs hp
  · rintro ⟨s, hs, hp, (rfl | hd)⟩
    · exact DescS.child s hs hp
    · exact descS_trans (DescS.child s hs hp) hd

theorem mem_childIdsOf {db : DB} {pid i : Nat} :
    i ∈ childIdsOf db pid ↔ ∃ d ∈ db.dirs, d.parent_id = some pid ∧ d.id = i := by
  unfold childIdsOf
  simp only [List.mem_map, List.mem_filter, beq_iff_eq]
  constructor
  · rintro ⟨d, ⟨hd, hp⟩, rfl⟩
    exact ⟨d, hd, hp, rfl⟩
  · rintro ⟨d, hd, hp, rfl⟩
    exact ⟨d, ⟨hd, hp⟩, rfl⟩

theorem mem_dirSkels {db : DB} {s : DirSkel} :
    s ∈ dirSkels db ↔ ∃ d ∈ db.dirs, d.skel = s := by
  unfold dirSkels
  simp only [List.mem_map]

theorem descS_iff_childIds {db : DB} {pid x : Nat} :
    DescS (dirSkels db) pid x ↔
      (x ∈ childIdsOf db pid ∨ ∃ i ∈ childIdsOf db pid, DescS (dirSkels db) i x) := by
  rw [descS_iff]
  constructor
  · rintro ⟨s, hs, hp, hd⟩
    obtain ⟨d, hd', rfl⟩ := mem_dirSkels.mp hs
    have hi : d.id ∈ childIdsOf db pid := mem_childIdsOf.mpr ⟨d, hd', hp, rfl⟩
    cases hd with
    | inl he => exact Or.inl (he ▸ hi)
    | inr hdesc => exact Or.inr ⟨d.id, hi, hdesc⟩
  · rintro (hx | ⟨i, hi, hdesc⟩)
    · obtain ⟨d, hd, hp, rfl⟩ := mem_childIdsOf.mp hx
      exact ⟨d.skel, mem_dirSkels.mpr ⟨d, hd, rfl⟩, hp, Or.inl rfl⟩
    · obtain ⟨d, hd, hp, rfl⟩ := mem_childIdsOf.mp hi
      exact ⟨d.skel, mem_dirSkels.mpr ⟨d, hd, rfl⟩, hp, Or.inr hdesc⟩

theorem countAbove_le_length (sk : List DirSkel) (l : Nat) :
    countAbove sk l ≤ sk.length :=
  List.length_filter_le _ _

theorem countAbove_cons (s : DirSkel) (t : List DirSkel) (l : Nat) :
    countAbove (s :: t) l =
      (if l < s.level then 1 else 0) + countAbove t l := by
  unfold countAbove
  rw [List.filter_cons]
  by_cases h : l < s.level
  · rw [if_pos (decide_eq_true h), if_pos h, List.length_cons]
    omega
  · rw [if_neg (by rw [decide_eq_false h]; exact Bool.false_ne_true), if_neg h]
    omega

theorem countAbove_succ_le (sk : List DirSkel) (l : Nat) :
    countAbove sk (l + 1) ≤ countAbove sk l := by
  induction sk with
  | nil => simp [countAbove]
  | cons s t ih =>
      rw [countAbove_cons, countAbove_cons]
      have : (if l + 1 < s.level then 1 else 0) ≤ (if l < s.level then 1 else 0) := by
        by_cases h1 : l + 1 < s.level
        · rw [if_pos h1, if_pos (by omega)]
        · rw [if_neg h1]
          omega
      omega

theorem countAbove_lt {sk : List DirSkel} {s : DirSkel} {l : Nat}
    (hs : s ∈ sk) (hl : s.level = l + 1) :
    countAbove sk (l + 1) < countAbove sk l := by
  induction sk with
  | nil => cases hs
  | cons a t ih =>
      rcases List.mem_cons.mp hs with rfl | hs'
      · rw [countAbove_cons, countAbove_cons,
          if_neg (show ¬ (l + 1 < s.level) by omega),
          if_pos (show l < s.level by omega)]
        have := countAbove_succ_le t l
        omega
      · have hlt := ih hs'
        rw [countAbove_cons, countAbove_cons]
        have : (if l + 1 < a.level then 1 else 0) ≤ (if l < a.level then 1 else 0) := by
          by_cases h1 : l + 1 < a.level
          · rw [if_pos h1, if_pos (by omega)]
          · rw [if_neg h1]
            omega
        omega

theorem updateDir_skels {db : DB} {i : Nat} {g : Directory → Directory}
    (hg : ∀ d, (g d).skel = d.skel) :
    dirSkels (db.updateDir i g) = dirSkels db := by
  unfold dirSkels DB.updateDir
  simp only [List.map_map]
  apply List.map_congr_left
  intro d _
  by_cases h : d.id == i <;> simp [Function.comp, h, hg]

theorem updateDir_docs (db : DB) (i : Nat) (g : Directory → Directory) :
    (db.updateDir i g).docs = db.docs := rfl

theorem updateDir_length (db : DB) (i : Nat) (g : Directory → Directory) :
    (db.updateDir i g).dirs.length = db.dirs.length := by
  unfold DB.updateDir
  simp

theorem forall2_updateDir (st : StatusEnum) (f : TsField) {lo hi : Nat} {ts : Nat}
    (db : DB) (i : Nat) (hlo : lo ≤ ts) (hhi : ts < hi) :
    List.Forall₂ (DirOutcome st f lo hi (fun x => x = i)) db.dirs
      (db.updateDir i (fun d => mutDir st f ts d)).dirs := by
  unfold DB.updateDir
  refine List.Forall₂.imp ?_ (forall2_map_self _ db.dirs)
  intro d d' hd
  subst hd
  constructor
  · intro hp
    refine ⟨ts, hlo, hhi, ?_⟩
    simp [hp]
  · intro hp
    have : (d.id == i) = false := by
      simp only [beq_eq_false_iff_ne, ne_eq]
      exact hp
    simp [this]

theorem updateDocsOfDir_some (db : DB) (pid : Nat) (st : StatusEnum) (f : TsField)
    (ts : Nat) :
    updateDocsOfDir db pid st (some f) ts =
      .ok { db with docs := db.docs.map (fun x =>
        if x.directory_id == some pid then mutDoc st f ts x else x) } := rfl

theorem forall2_updateDocs (st : StatusEnum) (f : TsField) {lo hi ts : Nat}
    (docs : List Document) (pid : Nat) (hlo : lo ≤ ts) (hhi : ts < hi) :
    List.Forall₂ (DocOutcome st f lo hi (fun q => q = pid)) docs
      (docs.map (fun x => if x.directory_id == some pid then mutDoc st f ts x else x)) := by
  refine List.Forall₂.imp ?_ (forall2_map_self _ docs)
  intro x x' hx
  subst hx
  constructor
  · rintro ⟨q, hq, rfl⟩
    refine ⟨ts, hlo, hhi, ?_⟩
    simp [hq]
  · intro hp
    have : (x.directory_id == some pid) = false := by
      rw [beq_eq_false_iff_ne]
      intro he
      exact hp ⟨pid, he, rfl⟩
    simp [this]

theorem cascade_loop_ok (st : StatusEnum) (f : TsField) (fuel : Nat)
    (ih : CascadeOkStmt st f fuel) : CascadeLoopStmt st f fuel := by
  intro ids
  induction ids with
  | nil =>
      intro db clock ts l _ _ _ _
      refine ⟨db, clock, ?_, le_refl _, ?_, ?_⟩
      · rw [updateChildrenLoop]
      · exact forall2_dirOutcome_refl (by simp) _
      · exact forall2_docOutcome_refl (by simp) _
  | cons i rest ihrest =>
      intro db clock ts l hl hids hcnt hts
      obtain ⟨si, hsi, hsiid, hsilvl⟩ := hids i (List.mem_cons_self i rest)
      set db₁ := db.updateDir i (fun d => mutDir st f ts d) with hdb₁
      have hskel₁ : dirSkels db₁ = dirSkels db :=
        updateDir_skels (fun d => mutDir_skel st f ts d)
      have hl₁ : HLvl (dirSkels db₁) := by rw [hskel₁]; exact hl
      have hch₁ : ∀ s ∈ dirSkels db₁, s.parent_id = some i → s.level = (l + 1) + 1 := by
        rw [hskel₁]
        intro s hs hp
        have := hl s hs si hsi (by rw [hsiid]; exact hp)
        omega
      have hcnt₁ : countAbove (dirSkels db₁) (l + 1) < fuel := by
        rw [hskel₁]
        have h1 := countAbove_lt hsi hsilvl
        omega
      obtain ⟨db₂, clock₂, heq₂, hle₂, hdirs₂, hdocs₂⟩ :=
        ih db₁ clock i (l + 1) hl₁ hch₁ hcnt₁
      have hskel₂ : dirSkels db₂ = dirSkels db := by
        rw [skels_eq_of_forall2 hdirs₂, hskel₁]
      have hl₂ : HLvl (dirSkels db₂) := by rw [hskel₂]; exact hl
      have hids₂ : ∀ j ∈ rest, ∃ s ∈ dirSkels db₂, s.id = j ∧ s.level = l + 1 := by
        rw [hskel₂]
        intro j hj
        exact hids j (List.mem_cons_of_mem i hj)
      have hcnt₂ : countAbove (dirSkels db₂) l < fuel + 1 := by rw [hskel₂]; exact hcnt
      have hts₂ : ts < clock₂ := lt_of_lt_of_le hts hle₂
      obtain ⟨db₃, clock₃, heq₃, hle₃, hdirs₃, hdocs₃⟩ :=
        ihrest db₂ clock₂ ts l hl₂ hids₂ hcnt₂ hts₂
      rw [hskel₁] at hdirs₂ hdocs₂
      rw [hskel₂] at hdirs₃ hdocs₃
      refine ⟨db₃, clock₃, ?_, le_trans hle₂ hle₃, ?_, ?_⟩
      · rw [updateChildrenLoop, ← hdb₁, heq₂]
        exact heq₃
      · have h01 : List.Forall₂ (DirOutcome st f ts clock₂ (fun x => x = i))
            db.dirs db₁.dirs := forall2_updateDir st f db i (le_refl ts) hts₂
        have h02 : List.Forall₂
            (DirOutcome st f ts clock₂ (fun x => x = i ∨ DescS (dirSkels db) i x))
            db.dirs db₂.dirs := forall2_trans
          (R := DirOutcome st f ts clock₂ (fun x => x = i))
          (S := DirOutcome st f clock clock₂ (DescS (dirSkels db) i))
          (T := DirOutcome st f ts clock₂ (fun x => x = i ∨ DescS (dirSkels db) i x))
          (fun a b c hab hbc => dirOutcome_comp hab hbc (le_of_lt hts) (le_refl clock₂))
          h01 hdirs₂
        have h03 : List.Forall₂
            (DirOutcome st f ts clock₃ (fun x =>
              (x = i ∨ DescS (dirSkels db) i x) ∨
                (x ∈ rest ∨ ∃ j ∈ rest, DescS (dirSkels db) j x)))
            db.dirs db₃.dirs := forall2_trans
          (R := DirOutcome st f ts clock₂ (fun x => x = i ∨ DescS (dirSkels db) i x))
          (S := DirOutcome st f ts clock₃ (fun x =>
            x ∈ rest ∨ ∃ j ∈ rest, DescS (dirSkels db) j x))
          (T := DirOutcome st f ts clock₃ (fun x =>
            (x = i ∨ DescS (dirSkels db) i x) ∨
              (x ∈ rest ∨ ∃ j ∈ rest, DescS (dirSkels db) j x)))
          (fun a b c hab hbc => dirOutcome_comp hab hbc (le_refl ts) hle₃)
          h02 hdirs₃
        refine List.Forall₂.imp ?_ h03
        intro a b hab
        refine dirOutcome_mono hab ?_ (le_refl ts) (le_refl clock₃)
        intro x
        simp only [List.mem_cons]
        constructor
        · rintro ((rfl | hx) | ⟨j, (rfl | hj), hd⟩)
          · exact Or.inl (Or.inl rfl)
          · exact Or.inr (Or.inl hx)
          · exact Or.inl (Or.inr hd)
          · exact Or.inr (Or.inr ⟨j, hj, hd⟩)
        · rintro ((rfl | hd) | (hx | ⟨j, hj, hd⟩))
          · exact Or.inl (Or.inl rfl)
          · exact Or.inr ⟨i, Or.inl rfl, hd⟩
          · exact Or.inl (Or.inr hx)
          · exact Or.inr ⟨j, Or.inr hj, hd⟩
      · have h01 : List.Forall₂ (DocOutcome st f ts clock₂ (fun _ => False))
            db.docs db₁.docs := by
          have : db₁.docs = db.docs := updateDir_docs db i _
          rw [this]
          exact forall2_docOutcome_refl (by simp) _
        have h02 : List.Forall₂
            (DocOutcome st f ts clock₂ (fun q =>
              False ∨ (q = i ∨ DescS (dirSkels db) i q)))
            db.docs db₂.docs := forall2_trans
          (R := DocOutcome st f ts clock₂ (fun _ => False))
          (S := DocOutcome st f clock clock₂ (fun q => q = i ∨ DescS (dirSkels db) i q))
          (T := DocOutcome st f ts clock₂ (fun q =>
            False ∨ (q = i ∨ DescS (dirSkels db) i q)))
          (fun a b c hab hbc => docOutcome_comp hab hbc (le_of_lt hts) (le_refl clock₂))
          h01 hdocs₂
        have h03 : List.Forall₂
            (DocOutcome st f ts clock₃ (fun q =>
              (False ∨ (q = i ∨ DescS (dirSkels db) i q)) ∨
                ∃ j ∈ rest, (q = j ∨ DescS (dirSkels db) j q)))
            db.docs db₃.docs := forall2_trans
          (R := DocOutcome st f ts clock₂ (fun q =>
            False ∨ (q = i ∨ DescS (dirSkels db) i q)))
          (S := DocOutcome st f ts clock₃ (fun q =>
            ∃ j ∈ rest, (q = j ∨ DescS (dirSkels db) j q)))
          (T := DocOutcome st f ts clock₃ (fun q =>
            (False ∨ (q = i ∨ DescS (dirSkels db) i q)) ∨
              ∃ j ∈ rest, (q = j ∨ DescS (dirSkels db) j q)))
          (fun a b c hab hbc => docOutcome_comp hab hbc (le_refl ts) hle₃)
          h02 hdocs₃
        refine List.Forall₂.imp ?_ h03
        intro a b hab
        refine docOutcome_mono hab ?_ (le_refl ts) (le_refl clock₃)
        intro q
        simp only [List.mem_cons]
        constructor
        · rintro ⟨j, (rfl | hj), hd⟩
          · exact Or.inl (Or.inr hd)
          · exact Or.inr ⟨j, hj, hd⟩
        · rintro ((hfalse | hd) | ⟨j, hj, hd⟩)
          · exact absurd hfalse not_false
          · exact ⟨i, Or.inl rfl, hd⟩
          · exact ⟨j, Or.inr hj, hd⟩

theorem cascade_ok (st : StatusEnum) (f : TsField) :
    ∀ fuel, CascadeOkStmt st f fuel := by
  intro fuel
  induction fuel with
  | zero =>
      intro db clock pid l _ _ hcnt
      exact absurd hcnt (Nat.not_lt_zero _)
  | succ fuel ih =>
      intro db clock pid l hl hch hcnt
      have hids : ∀ i ∈ childIdsOf db pid,
          ∃ s ∈ dirSkels db, s.id = i ∧ s.level = l + 1 := by
        intro i hi
        obtain ⟨d, hd, hp, rfl⟩ := mem_childIdsOf.mp hi
        have hs : d.skel ∈ dirSkels db := mem_dirSkels.mpr ⟨d, hd, rfl⟩
        exact ⟨d.skel, hs, rfl, hch d.skel hs hp⟩
      obtain ⟨db₂, clock₂, heq₂, hle₂, hdirs₂, hdocs₂⟩ :=
        cascade_loop_ok st f fuel ih (childIdsOf db pid) db (clock + 1) clock l
          hl hids hcnt (Nat.lt_succ_self clock)
      have hcl : clock < clock₂ := lt_of_lt_of_le (Nat.lt_succ_self clock) hle₂
      refine ⟨{ db₂ with docs := db₂.docs.map (fun x =>
          if x.directory_id == some pid then mutDoc st f clock x else x) },
        clock₂, ?_, le_of_lt hcl, ?_, ?_⟩
      · rw [update_children_status_recursive, heq₂]
        rfl
      · refine List.Forall₂.imp ?_ hdirs₂
        intro a b hab
        exact dirOutcome_mono hab (fun x => descS_iff_childIds) (le_refl _) (le_refl _)
      · have hstep : List.Forall₂
            (DocOutcome st f clock clock₂ (fun q => q = pid)) db₂.docs
            (db₂.docs.map (fun x =>
              if x.directory_id == some pid then mutDoc st f clock x else x)) :=
          forall2_updateDocs st f db₂.docs pid (le_refl clock) hcl
        have h02 : List.Forall₂
            (DocOutcome st f clock clock₂ (fun q =>
              (∃ i ∈ childIdsOf db pid, (q = i ∨ DescS (dirSkels db) i q)) ∨ q = pid))
            db.docs
            (db₂.docs.map (fun x =>
              if x.directory_id == some pid then mutDoc st f clock x else x)) :=
          forall2_trans
            (R := DocOutcome st f clock clock₂ (fun q =>
              ∃ i ∈ childIdsOf db pid, (q = i ∨ DescS (dirSkels db) i q)))
            (S := DocOutcome st f clock clock₂ (fun q => q = pid))
            (T := DocOutcome st f clock clock₂ (fun q =>
              (∃ i ∈ childIdsOf db pid, (q = i ∨ DescS (dirSkels db) i q)) ∨ q = pid))
            (fun a b c hab hbc => docOutcome_comp hab hbc (le_refl _) (le_refl _))
            hdocs₂ hstep
        refine List.Forall₂.imp ?_ h02
        intro a b hab
        refine docOutcome_mono hab ?_ (le_refl _) (le_refl _)
        intro q
        rw [descS_iff_childIds]
        constructor
        · rintro (rfl | (hq | ⟨j, hj, hd⟩))
          · exact Or.inr rfl
          · exact Or.inl ⟨q, hq, Or.inl rfl⟩
          · exact Or.inl ⟨j, hj, Or.inr hd⟩
        · rintro (⟨j, hj, (rfl | hd)⟩ | rfl)
          · exact Or.inr (Or.inl hj)
          · exact Or.inr (Or.inr ⟨j, hj, hd⟩)
          · exact Or.inl rfl

theorem cascade_none_crash_child (fuel : Nat) (db : DB) (clock pid : Nat)
    (st : StatusEnum) (h : childIdsOf db pid ≠ []) :
    update_children_status_recursive (fuel + 1) db clock pid st none =
      .error setattrCrash := by
  rw [update_children_status_recursive]
  cases hc : childIdsOf db pid with
  | nil => exact absurd hc h
  | cons i rest => rw [updateChildrenLoop]

theorem cascade_none_crash_doc (fuel : Nat) (db : DB) (clock pid : Nat)
    (st : StatusEnum) (h1 : childIdsOf db pid = [])
    (h2 : ¬ (db.docs.filter (fun x => x.directory_id == some pid)).isEmpty) :
    update_children_status_recursive (fuel + 1) db clock pid st none =
      .error setattrCrash := by
  have h2' : (db.docs.filter (fun x => x.directory_id == some pid)).isEmpty = false :=
    Bool.eq_false_iff.mpr h2
  rw [update_children_status_recursive, h1, updateChildrenLoop]
  simp only [updateDocsOfDir, h2', Bool.false_eq_true, if_false]

theorem cascade_none_ok (fuel : Nat) (db : DB) (clock pid : Nat)
    (st : StatusEnum) (h1 : childIdsOf db pid = [])
    (h2 : (db.docs.filter (fun x => x.directory_id == some pid)).isEmpty) :
    update_children_status_recursive (fuel + 1) db clock pid st none =
      .ok (db, clock + 1) := by
  rw [update_children_status_recursive, h1, updateChildrenLoop]
  simp only [updateDocsOfDir, h2, if_true]

theorem cascade_some_leaf (fuel : Nat) (db : DB) (clock pid : Nat)
    (st : StatusEnum) (f : TsField) (h1 : childIdsOf db pid = [])
    (h2 : db.docs.filter (fun x => x.directory_id == some pid) = []) :
    update_children_status_recursive (fuel + 1) db clock pid st (some f) =
      .ok (db, clock + 1) := by
  have hall : ∀ x ∈ db.docs, (x.directory_id == some pid) = false := by
    intro x hx
    by_cases h : (x.directory_id == some pid) = true
    · exact absurd (List.mem_filter.mpr ⟨hx, h⟩) (by rw [h2]; exact List.not_mem_nil x)
    · exact Bool.eq_false_iff.mpr h
  have hmap : db.docs.map (fun x =>
      if x.directory_id == some pid then mutDoc st f clock x else x) = db.docs := by
    calc db.docs.map (fun x =>
          if x.directory_id == some pid then mutDoc st f clock x else x)
        = db.docs.map (fun x => x) := by
          apply List.map_congr_left
          intro x hx
          rw [hall x hx]
          simp
      _ = db.docs := List.map_id _
  rw [update_children_status_recursive, h1, updateChildrenLoop]
  simp only [updateDocsOfDir, hmap]

theorem find?_updateDir (db : DB) (i : Nat) (g : Directory → Directory)
    (hg : ∀ d, (g d).id = d.id) (p : Nat → Bool) :
    (db.updateDir i g).dirs.find? (fun d => p d.id) =
      ((db.dirs.find? (fun d => p d.id)).map
        (fun d => if d.id == i then g d else d)) := by
  unfold DB.updateDir
  rw [List.find?_map]
  have e3 : ((fun d : Directory => p d.id) ∘ (fun d => if d.id == i then g d else d)) =
      fun d : Directory => p d.id := by
    funext d
    by_cases h : d.id == i <;> simp [Function.comp, h, hg]
  rw [e3]

theorem childIdsOf_updateDir (db : DB) (i : Nat) (g : Directory → Directory)
    (hg : ∀ d, (g d).skel = d.skel) (pid : Nat) :
    childIdsOf (db.updateDir i g) pid = childIdsOf db pid := by
  unfold childIdsOf DB.updateDir
  have hpar : ∀ d : Directory, (g d).parent_id = d.parent_id := by
    intro d
    exact congrArg DirSkel.parent_id (hg d)
  have hid : ∀ d : Directory, (g d).id = d.id := by
    intro d
    exact congrArg DirSkel.id (hg d)
  rw [List.filter_map]
  have e2 : ((fun d : Directory => d.parent_id == some pid) ∘
      (fun d => if d.id == i then g d else d)) =
      fun d : Directory => d.parent_id == some pid := by
    funext d
    by_cases h : d.id == i <;> simp [Function.comp, h, hpar]
  rw [e2, List.map_map]
  apply List.map_congr_left
  intro d _
  by_cases h : d.id == i <;> simp [Function.comp, h, hid]

theorem updateDir_updateDir (db : DB) (i : Nat) (g₁ g₂ : Directory → Directory)
    (hg₁ : ∀ d, (g₁ d).id = d.id) :
    (db.updateDir i g₁).updateDir i g₂ = db.updateDir i (fun d => g₂ (g₁ d)) := by
  unfold DB.updateDir
  simp only [List.map_map]
  congr 1
  apply List.map_congr_left
  intro d _
  by_cases h : d.id == i <;> simp [Function.comp, h, hg₁]

theorem forall2_mem_right {α β : Type} {R : α → β → Prop} :
    ∀ {l₁ : List α} {l₂ : List β}, List.Forall₂ R l₁ l₂ →
      ∀ b ∈ l₂, ∃ a ∈ l₁, R a b := by
  intro l₁ l₂ h
  induction h with
  | nil => intro b hb; cases hb
  | cons hr _ ih =>
      intro b hb
      rcases List.mem_cons.mp hb with rfl | hb'
      · exact ⟨_, List.mem_cons_self _ _, hr⟩
      · obtain ⟨a, ha, har⟩ := ih b hb'
        exact ⟨a, List.mem_cons_of_mem _ ha, har⟩

theorem move_directory_to_trash_spec {db : DB} {clock R : Nat} {root : Directory}
    (hl : HLvl (dirSkels db))
    (hfind : db.dirs.find? (fun d => d.id == R) = some root)
    (hst : root.status ≠ StatusEnum.TRASHED) :
    ∃ db' clock',
      move_directory_to_trash db clock R = .ok (db', clock',
        { success := true
          message := "Directory '" ++ root.name ++
            "' and all its contents have been moved to trash"
          affected_items := 1 }) ∧
      clock < clock' ∧
      List.Forall₂ (DirOutcome StatusEnum.TRASHED TsField.trashed_at clock clock'
        (fun x => x = R ∨ DescS (dirSkels db) R x)) db.dirs db'.dirs ∧
      List.Forall₂ (DocOutcome StatusEnum.TRASHED TsField.trashed_at clock clock'
        (fun q => q = R ∨ DescS (dirSkels db) R q)) db.docs db'.docs := by
  have hmem : root ∈ db.dirs := List.mem_of_find?_eq_some hfind
  have hid : root.id = R := by
    have h := List.find?_some hfind
    simpa using h
  have hstb : (root.status == StatusEnum.TRASHED) = false := by
    rw [beq_eq_false_iff_ne]
    exact hst
  set g : Directory → Directory := fun d =>
    { d with status := StatusEnum.TRASHED, trashed_at := some clock } with hgdef
  set db₁ := db.updateDir R g with hdb₁
  have hgskel : ∀ d, (g d).skel = d.skel := fun d => rfl
  have hskel₁ : dirSkels db₁ = dirSkels db := updateDir_skels hgskel
  have hl₁ : HLvl (dirSkels db₁) := by rw [hskel₁]; exact hl
  have hch₁ : ∀ s ∈ dirSkels db₁, s.parent_id = some R → s.level = root.level + 1 := by
    rw [hskel₁]
    intro s hs hp
    exact hl s hs root.skel (mem_dirSkels.mpr ⟨root, hmem, rfl⟩)
      (by rw [show root.skel.id = R from hid]; exact hp)
  have hcnt₁ : countAbove (dirSkels db₁) root.level < db.fuel := by
    rw [hskel₁]
    have h1 := countAbove_le_length (dirSkels db) root.level
    have hlen : (dirSkels db).length = db.dirs.length := List.length_map _ _
    unfold DB.fuel
    omega
  obtain ⟨db₂, clock₂, heq₂, hle₂, hdirs₂, hdocs₂⟩ :=
    cascade_ok StatusEnum.TRASHED TsField.trashed_at db.fuel db₁ (clock + 1) R
      root.level hl₁ hch₁ hcnt₁
  have hcl : clock < clock₂ := lt_of_lt_of_le (Nat.lt_succ_self clock) hle₂
  rw [hskel₁] at hdirs₂ hdocs₂
  refine ⟨db₂, clock₂, ?_, hcl, ?_, ?_⟩
  · rw [move_directory_to_trash, hfind]
    simp only [hstb, Bool.false_eq_true, if_false]
    rw [← hgdef, ← hdb₁, heq₂]
  · have h01 : List.Forall₂
        (DirOutcome StatusEnum.TRASHED TsField.trashed_at clock clock₂ (fun x => x = R))
        db.dirs db₁.dirs :=
      forall2_updateDir StatusEnum.TRASHED TsField.trashed_at db R (le_refl clock) hcl
    exact forall2_trans
      (R := DirOutcome StatusEnum.TRASHED TsField.trashed_at clock clock₂ (fun x => x = R))
      (S := DirOutcome StatusEnum.TRASHED TsField.trashed_at (clock + 1) clock₂
        (DescS (dirSkels db) R))
      (T := DirOutcome StatusEnum.TRASHED TsField.trashed_at clock clock₂
        (fun x => x = R ∨ DescS (dirSkels db) R x))
      (fun a b c hab hbc =>
        dirOutcome_comp hab hbc (Nat.le_succ clock) (le_refl clock₂))
      h01 hdirs₂
  · have h01 : List.Forall₂
        (DocOutcome StatusEnum.TRASHED TsField.trashed_at clock clock₂ (fun _ => False))
        db.docs db₁.docs := by
      have he : db₁.docs = db.docs := rfl
      rw [he]
      exact forall2_docOutcome_refl (by simp) _
    have h02 : List.Forall₂
        (DocOutcome StatusEnum.TRASHED TsField.trashed_at clock clock₂
          (fun q => False ∨ (q = R ∨ DescS (dirSkels db) R q)))
        db.docs db₂.docs :=
      forall2_trans
        (R := DocOutcome StatusEnum.TRASHED TsField.trashed_at clock clock₂ (fun _ => False))
        (S := DocOutcome StatusEnum.TRASHED TsField.trashed_at (clock + 1) clock₂
          (fun q => q = R ∨ DescS (dirSkels db) R q))
        (T := DocOutcome StatusEnum.TRASHED TsField.trashed_at clock clock₂
          (fun q => False ∨ (q = R ∨ DescS (dirSkels db) R q)))
        (fun a b c hab hbc =>
          docOutcome_comp hab hbc (Nat.le_succ clock) (le_refl clock₂))
        h01 hdocs₂
    refine List.Forall₂.imp ?_ h02
    intro a b hab
    refine docOutcome_mono hab ?_ (le_refl _) (le_refl _)
    intro q
    exact Iff.intro Or.inr (fun h => h.elim (fun hf => absurd hf not_false) id)

theorem archive_directory_spec {db : DB} {clock R : Nat} {root : Directory}
    (hl : HLvl (dirSkels db))
    (hfind : db.dirs.find? (fun d => d.id == R) = some root)
    (hst : root.status = StatusEnum.ACTIVE) :
    ∃ db' clock',
      archive_directory db clock R = .ok (db', clock',
        { success := true
          message := "Directory '" ++ root.name ++
            "' and all its contents have been archived"
          affected_items := 1 }) ∧
      clock < clock' ∧
      List.Forall₂ (DirOutcome StatusEnum.ARCHIVED TsField.archived_at clock clock'
        (fun x => x = R ∨ DescS (dirSkels db) R x)) db.dirs db'.dirs ∧
      List.Forall₂ (DocOutcome StatusEnum.ARCHIVED TsField.archived_at clock clock'
        (fun q => q = R ∨ DescS (dirSkels db) R q)) db.docs db'.docs := by
  have hmem : root ∈ db.dirs := List.mem_of_find?_eq_some hfind
  have hid : root.id = R := by
    have h := List.find?_some hfind
    simpa using h
  have hstb : (root.status != StatusEnum.ACTIVE) = false := by
    rw [hst]
    rfl
  set g : Directory → Directory := fun d =>
    { d with status := StatusEnum.ARCHIVED, archived_at := some clock } with hgdef
  set db₁ := db.updateDir R g with hdb₁
  have hgskel : ∀ d, (g d).skel = d.skel := fun d => rfl
  have hskel₁ : dirSkels db₁ = dirSkels db := updateDir_skels hgskel
  have hl₁ : HLvl (dirSkels db₁) := by rw [hskel₁]; exact hl
  have hch₁ : ∀ s ∈ dirSkels db₁, s.parent_id = some R → s.level = root.level + 1 := by
    rw [hskel₁]
    intro s hs hp
    exact hl s hs root.skel (mem_dirSkels.mpr ⟨root, hmem, rfl⟩)
      (by rw [show root.skel.id = R from hid]; exact hp)
  have hcnt₁ : countAbove (dirSkels db₁) root.level < db.fuel := by
    rw [hskel₁]
    have h1 := countAbove_le_length (dirSkels db) root.level
    have hlen : (dirSkels db).length = db.dirs.length := List.length_map _ _
    unfold DB.fuel
    omega
  obtain ⟨db₂, clock₂, heq₂, hle₂, hdirs₂, hdocs₂⟩ :=
    cascade_ok StatusEnum.ARCHIVED TsField.archived_at db.fuel db₁ (clock + 1) R
      root.level hl₁ hch₁ hcnt₁
  have hcl : clock < clock₂ := lt_of_lt_of_le (Nat.lt_succ_self clock) hle₂
  rw [hskel₁] at hdirs₂ hdocs₂
  refine ⟨db₂, clock₂, ?_, hcl, ?_, ?_⟩
  · rw [archive_directory, hfind]
    simp only [hstb, Bool.false_eq_true, if_false]
    rw [← hgdef, ← hdb₁, heq₂]
  · have h01 : List.Forall₂
        (DirOutcome StatusEnum.ARCHIVED TsField.archived_at clock clock₂ (fun x => x = R))
        db.dirs db₁.dirs :=
      forall2_updateDir StatusEnum.ARCHIVED TsField.archived_at db R (le_refl clock) hcl
    exact forall2_trans
      (R := DirOutcome StatusEnum.ARCHIVED TsField.archived_at clock clock₂ (fun x => x = R))
      (S := DirOutcome StatusEnum.ARCHIVED TsField.archived_at (clock + 1) clock₂
        (DescS (dirSkels db) R))
      (T := DirOutcome StatusEnum.ARCHIVED TsField.archived_at clock clock₂
        (fun x => x = R ∨ DescS (dirSkels db) R x))
      (fun a b c hab hbc =>
        dirOutcome_comp hab hbc (Nat.le_succ clock) (le_refl clock₂))
      h01 hdirs₂
  · have h01 : List.Forall₂
        (DocOutcome StatusEnum.ARCHIVED TsField.archived_at clock clock₂ (fun _ => False))
        db.docs db₁.docs := by
      have he : db₁.docs = db.docs := rfl
      rw [he]
      exact forall2_docOutcome_refl (by simp) _
    have h02 : List.Forall₂
        (DocOutcome StatusEnum.ARCHIVED TsField.archived_at clock clock₂
          (fun q => False ∨ (q = R ∨ DescS (dirSkels db) R q)))
        db.docs db₂.docs :=
      forall2_trans
        (R := DocOutcome StatusEnum.ARCHIVED TsField.archived_at clock clock₂ (fun _ => False))
        (S := DocOutcome StatusEnum.ARCHIVED TsField.archived_at (clock + 1) clock₂
          (fun q => q = R ∨ DescS (dirSkels db) R q))
        (T := DocOutcome StatusEnum.ARCHIVED TsField.archived_at clock clock₂
          (fun q => False ∨ (q = R ∨ DescS (dirSkels db) R q)))
        (fun a b c hab hbc =>
          docOutcome_comp hab hbc (Nat.le_succ clock) (le_refl clock₂))
        h01 hdocs₂
    refine List.Forall₂.imp ?_ h02
    intro a b hab
    refine docOutcome_mono hab ?_ (le_refl _) (le_refl _)
    intro q
    exact Iff.intro Or.inr (fun h => h.elim (fun hf => absurd hf not_false) id)

theorem restore_directory_leaf_spec {db : DB} {clock R : Nat} {root : Directory}
    (hfind : db.dirs.find? (fun d => d.id == R) = some root)
    (hst : root.status ≠ StatusEnum.ACTIVE)
    (hpar : parentNotActive db root = false)
    (hchild : childIdsOf db R = [])
    (hdocs : db.docs.filter (fun x => x.directory_id == some R) = []) :
    restore_directory db clock R = .ok
      (db.updateDir R (fun d =>
        { d with status := StatusEnum.ACTIVE, archived_at := none, trashed_at := none }),
       clock + 1,
       { success := true
         message := "Directory '" ++ root.name ++
           "' and all its contents have been restored"
         affected_items := 1 }) := by
  have hstb : (root.status == StatusEnum.ACTIVE) = false := by
    rw [beq_eq_false_iff_ne]
    exact hst
  set g : Directory → Directory := fun d =>
    { d with status := StatusEnum.ACTIVE, archived_at := none, trashed_at := none }
    with hgdef
  set db₁ := db.updateDir R g with hdb₁
  have hgskel : ∀ d, (g d).skel = d.skel := fun d => rfl
  have hchild₁ : childIdsOf db₁ R = [] := by
    rw [hdb₁, childIdsOf_updateDir db R g hgskel, hchild]
  have hdocs₁ : (db₁.docs.filter (fun x => x.directory_id == some R)).isEmpty := by
    have he : db₁.docs = db.docs := rfl
    rw [he, hdocs]
    rfl
  have hcas : update_children_status_recursive db.fuel db₁ clock R
      StatusEnum.ACTIVE none = .ok (db₁, clock + 1) := by
    rw [show db.fuel = db.dirs.length + 1 from rfl]
    exact cascade_none_ok db.dirs.length db₁ clock R StatusEnum.ACTIVE hchild₁ hdocs₁
  rw [restore_directory, hfind]
  simp only [hstb, Bool.false_eq_true, if_false, hpar]
  rw [← hgdef, ← hdb₁, hcas]

/-! Claim theorems. -/

/-- C1 counterexample: for the no-organization principal `u_noorg` the
resolver returns the sentinel `[0]` (with `[]` for departments), and
`list_directories` skips its organization membership filter — although this
principal is not the "all" case.  This refutes the claim that the filter is
skipped only in the all case and never for an empty scope: the skip condition
of the code fires exactly on the sentinel, which is what an empty scope
resolves to. -/
theorem c1_counterexample :
    u_noorg.organization_id = none ∧
    get_accessible_organizations u_noorg db_scope = [0] ∧
    get_accessible_departments u_noorg db_scope = [] ∧
    list_directories_org_filter_skipped u_noorg db_scope = true ∧
    specScopeAllCase u_noorg = false := by
  refine ⟨rfl, by decide, by decide, by decide, by decide⟩

/-- C2 (code bug): all single-item restore preconditions of
`restore_directory` hold on `db_restore_doc` — directory 1 is not ACTIVE and
has no parent — yet the endpoint raises `TypeError` instead of succeeding,
because the cascade is invoked with `timestamp_field = None` and
`setattr(doc, None, ts)` crashes on the contained document. -/
theorem c2_restore_crash_despite_precondition :
    db_restore_doc.dirs.find? (fun d => d.id == 1) = some dir_c2 ∧
    dir_c2.status ≠ StatusEnum.ACTIVE ∧
    parentNotActive db_restore_doc dir_c2 = false ∧
    restore_directory db_restore_doc 50 1 =
      .error (Err.crash "TypeError: attribute name must be string") := by
  refine ⟨by decide, by decide, by decide, ?_⟩
  simp [restore_directory, parentNotActive, truthy, update_children_status_recursive,
    updateChildrenLoop, childIdsOf, DB.updateDir, DB.fuel, mutDir, Directory.setTs,
    updateDocsOfDir, setattrCrash, db_restore_doc, dir_c2, doc_c2,
    List.find?, List.filter]

/-- C4 (code bug): restoring archived directory 1, whose own precondition
holds and whose child 2 should be cascaded back to ACTIVE, instead raises
`TypeError`: the restore cascade passes `None` as the timestamp field, so it
can never set any descendant ACTIVE, let alone clear its timestamps. -/
theorem c4_restore_cascade_crash :
    db_restore_child.dirs.find? (fun d => d.id == 1) = some dir_c2 ∧
    dir_c2.status ≠ StatusEnum.ACTIVE ∧
    parentNotActive db_restore_child dir_c2 = false ∧
    restore_directory db_restore_child 50 1 =
      .error (Err.crash "TypeError: attribute name must be string") := by
  refine ⟨by decide, by decide, by decide, ?_⟩
  simp [restore_directory, parentNotActive, truthy, update_children_status_recursive,
    updateChildrenLoop, childIdsOf, DB.updateDir, DB.fuel, mutDir, Directory.setTs,
    updateDocsOfDir, setattrCrash, db_restore_child, dir_c2,
    List.find?, List.filter]

/-- C5 counterexample: archiving ACTIVE directory 1 at instant 0 and then
trashing it at instant 2 both succeed, but the final row carries
`status = TRASHED` with BOTH `archived_at = 0` and `trashed_at = 2` set —
`move_directory_to_trash` never clears `archived_at`, so the claimed mutual
exclusivity of the two timestamps is violated. -/
theorem c5_counterexample_both_timestamps :
    archive_directory db_single_active 0 1 = .ok (db_single_archived, 2,
      { success := true
        message := "Directory 'a' and all its contents have been archived"
        affected_items := 1 }) ∧
    move_directory_to_trash db_single_archived 2 1 = .ok (db_single_both, 4,
      { success := true
        message := "Directory 'a' and all its contents have been moved to trash"
        affected_items := 1 }) ∧
    ∃ d, db_single_both.dirs = [d] ∧ d.status = StatusEnum.TRASHED ∧
      d.archived_at = some 0 ∧ d.trashed_at = some 2 := by
  refine ⟨?_, ?_, ?_⟩
  · simp [archive_directory, update_children_status_recursive, updateChildrenLoop,
      childIdsOf, DB.updateDir, DB.fuel, mutDir, Directory.setTs, updateDocsOfDir,
      db_single_active, db_single_archived, List.find?, List.filter]
  · simp [move_directory_to_trash, update_children_status_recursive, updateChildrenLoop,
      childIdsOf, DB.updateDir, DB.fuel, mutDir, Directory.setTs, updateDocsOfDir,
      db_single_archived, db_single_both, List.find?, List.filter]
  · exact ⟨_, rfl, rfl, rfl, rfl⟩

/-- C6 counterexample, recorded as a code bug: a bulk restore whose single
target qualifies (directory 1 is ARCHIVED with no parent) does not return
`success = true` with a best-effort count — it raises `TypeError` while
cascading into child 2 and the whole call fails with nothing committed. -/
theorem c6_bulk_restore_crash :
    bulk_restore_directories db_restore_child 0
        { item_ids := [1], item_type := "directory" } =
      .error (Err.crash "TypeError: attribute name must be string") := by
  simp [bulk_restore_directories, bulkRestoreDirsLoop, parentNotActive, truthy,
    update_children_status_recursive, updateChildrenLoop, childIdsOf, DB.updateDir,
    DB.fuel, mutDir, Directory.setTs, updateDocsOfDir, setattrCrash,
    db_restore_child, dir_c2, List.find?, List.filter]

/-- C7 counterexample: directory 2 is ACTIVE, so the claim promises that
archive followed by restore succeeds; but its parent 1 is ARCHIVED, so the
restore half fails with ParentNotActive. -/
theorem c7_counterexample_parent_archived :
    (db_c7.dirs.find? (fun d => d.id == 2)).map (fun d => d.status) =
      some StatusEnum.ACTIVE ∧
    archive_directory db_c7 0 2 = .ok (db_c7_archived, 2,
      { success := true
        message := "Directory 'd' and all its contents have been archived"
        affected_items := 1 }) ∧
    restore_directory db_c7_archived 2 2 =
      .error (Err.http 400 "Cannot restore: parent directory is not active") := by
  refine ⟨by decide, ?_, ?_⟩
  · simp [archive_directory, update_children_status_recursive, updateChildrenLoop,
      childIdsOf, DB.updateDir, DB.fuel, mutDir, Directory.setTs, updateDocsOfDir,
      db_c7, db_c7_archived, List.find?, List.filter]
  · simp [restore_directory, parentNotActive, truthy, db_c7_archived,
      List.find?, List.filter]

/-- C8 counterexample: the archived-directories listing takes no principal
and applies no scope filter, so it returns the archived directory of
organization 2 even though a plain user of organization 1 resolves to the
allow-list `[1]` — the node lies outside every non-super-admin scope. -/
theorem c8_counterexample_unscoped_archived_listing :
    list_archived_directories db_c8 = [dir_c8] ∧
    get_accessible_organizations u_c8 db_c8 = [1] ∧
    get_accessible_departments u_c8 db_c8 = [1] ∧
    (get_accessible_organizations u_c8 db_c8).contains dir_c8.organization_id
      = false ∧
    (get_accessible_departments u_c8 db_c8).contains dir_c8.department_id
      = false := by
  refine ⟨by decide, by decide, by decide, by decide, by decide⟩

/-- C3: trashing a directory tree root R (precondition: R exists and is not
already TRASHED) succeeds, and performs exactly this mutation: every
directory row that is R or a strict descendant of R, and every document
filed in R or a strict descendant, gets `status = TRASHED` and `trashed_at`
set to an instant inside the call window `[clock, clock')` — the per-level
`utcnow()` values differ only within the call, which is the "same call's
timestamp within epsilon"; every other directory and document row is left
exactly unchanged (`DirOutcome`/`DocOutcome` state both directions). -/
theorem c3_trash_cascades_exactly_to_subtree {db : DB} {clock R : Nat}
    {root : Directory}
    (hl : HLvl (dirSkels db))
    (hfind : db.dirs.find? (fun d => d.id == R) = some root)
    (hst : root.status ≠ StatusEnum.TRASHED) :
    ∃ db' clock',
      move_directory_to_trash db clock R = .ok (db', clock',
        { success := true
          message := "Directory '" ++ root.name ++
            "' and all its contents have been moved to trash"
          affected_items := 1 }) ∧
      clock < clock' ∧
      List.Forall₂ (DirOutcome StatusEnum.TRASHED TsField.trashed_at clock clock'
        (fun x => x = R ∨ DescS (dirSkels db) R x)) db.dirs db'.dirs ∧
      List.Forall₂ (DocOutcome StatusEnum.TRASHED TsField.trashed_at clock clock'
        (fun q => q = R ∨ DescS (dirSkels db) R q)) db.docs db'.docs :=
  move_directory_to_trash_spec hl hfind hst

/-- Witness for C3 at the concrete tree `db_tree` with root 1. -/
theorem c3_trash_cascades_exactly_to_subtree_witness :
    (HLvl (dirSkels db_tree) ∧
      db_tree.dirs.find? (fun d => d.id == 1) =
        some { id := 1, name := "R", organization_id := 1, department_id := 1 } ∧
      ({ id := 1, name := "R", organization_id := 1, department_id := 1 }
          : Directory).status ≠ StatusEnum.TRASHED) ∧
    (∃ db' clock',
      move_directory_to_trash db_tree 0 1 = .ok (db', clock',
        { success := true
          message := "Directory 'R' and all its contents have been moved to trash"
          affected_items := 1 }) ∧
      0 < clock' ∧
      List.Forall₂ (DirOutcome StatusEnum.TRASHED TsField.trashed_at 0 clock'
        (fun x => x = 1 ∨ DescS (dirSkels db_tree) 1 x)) db_tree.dirs db'.dirs ∧
      List.Forall₂ (DocOutcome StatusEnum.TRASHED TsField.trashed_at 0 clock'
        (fun q => q = 1 ∨ DescS (dirSkels db_tree) 1 q)) db_tree.docs db'.docs) :=
  ⟨⟨by unfold HLvl; decide, by decide, by decide⟩,
    @c3_trash_cascades_exactly_to_subtree db_tree 0 1
      { id := 1, name := "R", organization_id := 1, department_id := 1 }
      (by unfold HLvl; decide) (by decide) (by decide)⟩

/-- C9: share capability semantics.  Issuing against an owned document
persists a record expiring `ttl` days after `now`; resolving a token
strictly after its expiry fails Expired AND deletes the record, after which
every resolve of the same token fails NotFound; resolving an absent token
fails NotFound; revoking deletes unconditionally when the token exists and
fails NotFound otherwise. -/
theorem c9_share_expiry_and_revocation :
    (∀ (db : DB) (store : ShareStore) (now : Nat) (u : User) (docId ttl : Nat)
        (tok : String) (document : Document),
      db.docs.find? (fun x => x.id == docId) = some document →
      document.created_by = some u.id →
      ∃ rec, create_share_link db store now u docId ttl tok =
          .ok (store.filter (fun s => s.share_token != tok) ++ [rec], rec) ∧
        rec.expires_at = now + ttl ∧ rec.document_id = docId) ∧
    (∀ (store : ShareStore) (db : DB) (now : Nat) (tok : String) (rec : ShareData),
      store.find? (fun s => s.share_token == tok) = some rec →
      rec.expires_at < now →
      preview_shared_document store db now tok =
        (store.filter (fun s => s.share_token != tok),
         .error (Err.http 403 "Share link has expired")) ∧
      (∀ (dbb : DB) (later : Nat),
        preview_shared_document (store.filter (fun s => s.share_token != tok))
            dbb later tok =
          (store.filter (fun s => s.share_token != tok),
           .error (Err.http 404 "Share link not found or has been deleted")))) ∧
    (∀ (store : ShareStore) (db : DB) (now : Nat) (tok : String),
      store.find? (fun s => s.share_token == tok) = none →
      preview_shared_document store db now tok =
        (store, .error (Err.http 404 "Share link not found or has been deleted"))) ∧
    (∀ (store : ShareStore) (tok : String),
      (store.any (fun s => s.share_token == tok) = true →
        revoke_share_link store tok =
          (store.filter (fun s => s.share_token != tok), .ok ())) ∧
      (store.any (fun s => s.share_token == tok) = false →
        revoke_share_link store tok = (store, .error (Err.http 404 "Share link not found")))) := by
  refine ⟨?_, ?_, ?_, ?_⟩
  · intro db store now u docId ttl tok document hfind hown
    rw [create_share_link, hfind]
    have hb : (document.created_by == some u.id) = true := by
      rw [hown]
      simp
    simp only [hb, if_true, not_true, if_false]
    exact ⟨_, rfl, rfl, rfl⟩
  · intro store db now tok rec hfind hexp
    have hgone : (store.filter (fun s => s.share_token != tok)).find?
        (fun s => s.share_token == tok) = none := by
      rw [List.find?_eq_none]
      intro x hx
      have hne := (List.mem_filter.mp hx).2
      simp only [bne_iff_ne, ne_eq] at hne
      simp only [beq_iff_eq]
      exact hne
    constructor
    · rw [preview_shared_document, hfind]
      simp only [if_pos hexp]
    · intro dbb later
      rw [preview_shared_document, hgone]
  · intro store db now tok hfind
    rw [preview_shared_document, hfind]
  · intro store tok
    constructor
    · intro hany
      rw [revoke_share_link, if_pos hany]
    · intro hany
      rw [revoke_share_link, if_neg ?_]
      rw [hany]
      exact Bool.false_ne_true

/-- Witness for C9: issue a token for an owned document at day 100 with a
7-day ttl, resolve it at day 108 (expired, record deleted, subsequently
NotFound), resolve an absent token, and revoke an existing one. -/
theorem c9_share_expiry_and_revocation_witness :
    (db_c9.docs.find? (fun x => x.id == 5) = some doc_c9 ∧
      doc_c9.created_by = some u_c9.id ∧
      ([rec_c9].find? (fun s => s.share_token == "tok") = some rec_c9) ∧
      rec_c9.expires_at < 108 ∧
      (([] : ShareStore).find? (fun s => s.share_token == "none") = none) ∧
      ([rec_c9].any (fun s => s.share_token == "tok") = true)) ∧
    (∃ rec, create_share_link db_c9 [] 100 u_c9 5 7 "tok" =
        .ok (([] : ShareStore).filter (fun s => s.share_token != "tok") ++ [rec], rec) ∧
      rec.expires_at = 100 + 7 ∧ rec.document_id = 5) ∧
    (preview_shared_document [rec_c9] db_c9 108 "tok" =
        ([rec_c9].filter (fun s => s.share_token != "tok"),
         .error (Err.http 403 "Share link has expired")) ∧
      preview_shared_document ([rec_c9].filter (fun s => s.share_token != "tok"))
          db_c9 200 "tok" =
        ([rec_c9].filter (fun s => s.share_token != "tok"),
         .error (Err.http 404 "Share link not found or has been deleted"))) ∧
    (preview_shared_document ([] : ShareStore) db_c9 5 "none" =
        (([] : ShareStore), .error (Err.http 404 "Share link not found or has been deleted"))) ∧
    (revoke_share_link [rec_c9] "tok" =
        ([rec_c9].filter (fun s => s.share_token != "tok"), .ok ())) := by
  obtain ⟨ha, hb, hc, hd⟩ := c9_share_expiry_and_revocation
  refine ⟨⟨by decide, rfl, by decide, by decide, rfl, by decide⟩, ?_, ?_, ?_, ?_⟩
  · exact ha db_c9 [] 100 u_c9 5 7 "tok" doc_c9 (by decide) rfl
  · have h := hb [rec_c9] db_c9 108 "tok" rec_c9 (by decide) (by decide)
    exact ⟨h.1, h.2 db_c9 200⟩
  · exact hc [] db_c9 5 "none" rfl
  · exact (hd [rec_c9] "tok").1 (by decide)

/-- C10: creating a directory under an existing, accessible parent succeeds
with no inspection of the parent's lifecycle status — the hypotheses place no
constraint on `parent.status` — and the new row is ACTIVE at
`level = parent.level + 1` with `path = parent.path.rstrip("/") + "/" + name`
and no timestamps.  In contrast, `restore_directory` refuses to produce an
ACTIVE node under a non-ACTIVE parent, as the second conjunct states. -/
theorem c10_create_ignores_parent_status
    {db : DB} {payload : DirectoryCreate} {u : User} {new_id : Nat}
    {parent : Directory}
    (hp : truthy payload.parent_id = true)
    (hfind : db.dirs.find? (fun d => payload.parent_id == some d.id) = some parent)
    (hacc : can_access_directory u parent = true)
    (ho : ∃ o, orTruthy payload.organization_id u.organization_id = some o ∧ o ≠ 0)
    (hd : ∃ dp, orTruthy payload.department_id u.department_id = some dp ∧ dp ≠ 0) :
    (∃ d, create_directory db payload u new_id =
        .ok ({ db with dirs := db.dirs ++ [d] }, d) ∧
      d.status = StatusEnum.ACTIVE ∧
      d.level = parent.level + 1 ∧
      d.path = rstripSlash parent.path ++ "/" ++ payload.name ∧
      d.archived_at = none ∧ d.trashed_at = none ∧
      d.parent_id = payload.parent_id) ∧
    (∀ (dbb : DB) (clock x : Nat) (dirX : Directory),
      dbb.dirs.find? (fun t => t.id == x) = some dirX →
      dirX.status ≠ StatusEnum.ACTIVE →
      parentNotActive dbb dirX = true →
      restore_directory dbb clock x =
        .error (Err.http 400 "Cannot restore: parent directory is not active")) := by
  constructor
  · obtain ⟨o, hoe, hone⟩ := ho
    obtain ⟨dp, hde, hdne⟩ := hd
    have hzero : (o == 0 || dp == 0) = false := by
      simp [hone, hdne]
    have haccn : (¬ can_access_directory u parent) = false := by
      rw [hacc]
      simp
    rw [create_directory, hoe, hde]
    simp only [hzero, Bool.false_eq_true, if_false, hp, if_true, hfind, haccn]
    exact ⟨_, rfl, rfl, rfl, rfl, rfl, rfl, rfl⟩
  · intro dbb clock x dirX hfx hsx hpx
    have hsb : (dirX.status == StatusEnum.ACTIVE) = false := by
      rw [beq_eq_false_iff_ne]
      exact hsx
    rw [restore_directory, hfx]
    simp only [hsb, Bool.false_eq_true, if_false, hpx, if_true]

/-- Witness for C10: directory "kid" is created ACTIVE under the ARCHIVED
parent `dir_c10_parent`, at level 1 with path "/p/kid". -/
theorem c10_create_ignores_parent_status_witness :
    (truthy payload_c10.parent_id = true ∧
      db_c10.dirs.find? (fun d => payload_c10.parent_id == some d.id) =
        some dir_c10_parent ∧
      can_access_directory u_c10 dir_c10_parent = true ∧
      dir_c10_parent.status = StatusEnum.ARCHIVED) ∧
    ((∃ d, create_directory db_c10 payload_c10 u_c10 9 =
        .ok ({ db_c10 with dirs := db_c10.dirs ++ [d] }, d) ∧
      d.status = StatusEnum.ACTIVE ∧
      d.level = dir_c10_parent.level + 1 ∧
      d.path = rstripSlash dir_c10_parent.path ++ "/" ++ payload_c10.name ∧
      d.archived_at = none ∧ d.trashed_at = none ∧
      d.parent_id = payload_c10.parent_id) ∧
    (∀ (dbb : DB) (clock x : Nat) (dirX : Directory),
      dbb.dirs.find? (fun t => t.id == x) = some dirX →
      dirX.status ≠ StatusEnum.ACTIVE →
      parentNotActive dbb dirX = true →
      restore_directory dbb clock x =
        .error (Err.http 400 "Cannot restore: parent directory is not active"))) :=
  ⟨⟨by decide, by decide, by decide, by decide⟩,
    @c10_create_ignores_parent_status db_c10 payload_c10 u_c10 9 dir_c10_parent
      (by decide) (by decide) (by decide)
      ⟨1, by decide, by decide⟩ ⟨1, by decide, by decide⟩⟩
/-- C1 amended: a principal with no organization resolves to the reserved
sentinel `[0]` for organizations (unless super_admin) and to the empty list
for departments.  `list_directories` skips its organization membership filter
exactly when the resolved list equals the sentinel — so the filter IS skipped
for this empty scope, contrary to the original claim — but the query is still
not left unconstrained overall, because the empty department list produces a
membership filter that matches nothing: the endpoint returns no rows for a
no-organization principal. -/
theorem c1_no_org_scope_amended (db : DB) (u : User) (pid : Option Nat)
    (b : Bool) (st : StatusEnum) (h : u.organization_id = none) :
    get_accessible_departments u db = [] ∧
    (u.role ≠ "super_admin" →
      get_accessible_organizations u db = [0] ∧
      list_directories_org_filter_skipped u db = true) ∧
    list_directories db u pid b st = [] := by
  have htr : truthy u.organization_id = false := by rw [h]; rfl
  have hdep : get_accessible_departments u db = [] := by
    unfold get_accessible_departments
    rw [htr]
    simp
  have horg : u.role ≠ "super_admin" → get_accessible_organizations u db = [0] := by
    intro hr
    have hrb : (u.role == "super_admin") = false := by
      rw [beq_eq_false_iff_ne]
      exact hr
    unfold get_accessible_organizations
    rw [h]
    simp [hrb]
  refine ⟨hdep, ?_, ?_⟩
  · intro hr
    refine ⟨horg hr, ?_⟩
    unfold list_directories_org_filter_skipped
    rw [horg hr]
    rfl
  · unfold list_directories
    simp [hdep]

/-- Witness for C1 amended at the concrete no-organization principal. -/
theorem c1_no_org_scope_amended_witness :
    u_noorg.organization_id = none ∧
    (get_accessible_departments u_noorg db_scope = [] ∧
      (u_noorg.role ≠ "super_admin" →
        get_accessible_organizations u_noorg db_scope = [0] ∧
        list_directories_org_filter_skipped u_noorg db_scope = true) ∧
      list_directories db_scope u_noorg none true StatusEnum.ACTIVE = []) :=
  ⟨rfl, c1_no_org_scope_amended db_scope u_noorg none true StatusEnum.ACTIVE rfl⟩

/-- C7 amended: for an ACTIVE directory R whose parent is ACTIVE or absent
and which has no child directories and no contained documents, archive
followed by restore succeeds and the final store is the original one with
only R's row rewritten to `status = ACTIVE`, `archived_at = none`,
`trashed_at = none` — the found row is `root` with only those three fields
changed, so its `level` and `path` are identical to their values before.
(The two restrictions are forced by the code: with a non-ACTIVE parent the
restore fails with ParentNotActive, and with any child or document the
restore cascade raises TypeError.) -/
theorem c7_archive_restore_roundtrip_amended {db : DB} {clock R : Nat}
    {root : Directory}
    (hfind : db.dirs.find? (fun d => d.id == R) = some root)
    (hst : root.status = StatusEnum.ACTIVE)
    (hchild : childIdsOf db R = [])
    (hdocs : db.docs.filter (fun x => x.directory_id == some R) = [])
    (hpar : parentNotActive db root = false) :
    ∃ db₂,
      archive_directory db clock R = .ok
        (db.updateDir R (fun d =>
          { d with status := StatusEnum.ARCHIVED, archived_at := some clock }),
         clock + 2,
         { success := true
           message := "Directory '" ++ root.name ++
             "' and all its contents have been archived"
           affected_items := 1 }) ∧
      restore_directory
          (db.updateDir R (fun d =>
            { d with status := StatusEnum.ARCHIVED, archived_at := some clock }))
          (clock + 2) R = .ok
        (db₂, clock + 3,
         { success := true
           message := "Directory '" ++ root.name ++
             "' and all its contents have been restored"
           affected_items := 1 }) ∧
      db₂.dirs = db.dirs.map (fun d => if d.id == R then
        { d with
            status := StatusEnum.ACTIVE,
            archived_at := none,
            trashed_at := none } else d) ∧
      db₂.docs = db.docs ∧
      db₂.dirs.find? (fun d => d.id == R) = some
        { root with
            status := StatusEnum.ACTIVE,
            archived_at := none,
            trashed_at := none } := by
  have hmem : root ∈ db.dirs := List.mem_of_find?_eq_some hfind
  have hid : (root.id == R) = true := by
    have h := List.find?_some hfind
    simpa using h
  have hstb : (root.status != StatusEnum.ACTIVE) = false := by
    rw [hst]
    rfl
  set g₁ : Directory → Directory := fun d =>
    { d with status := StatusEnum.ARCHIVED, archived_at := some clock } with hg₁
  set g₂ : Directory → Directory := fun d =>
    { d with status := StatusEnum.ACTIVE, archived_at := none, trashed_at := none }
    with hg₂
  set db₁ := db.updateDir R g₁ with hdb₁
  have hg₁s : ∀ d, (g₁ d).skel = d.skel := fun d => rfl
  have hg₁id : ∀ d : Directory, (g₁ d).id = d.id := fun d => rfl
  have hchild₁ : childIdsOf db₁ R = [] := by
    rw [hdb₁, childIdsOf_updateDir db R g₁ hg₁s, hchild]
  have hdocs₁ : db₁.docs.filter (fun x => x.directory_id == some R) = [] := by
    have he : db₁.docs = db.docs := rfl
    rw [he, hdocs]
  have hcas : update_children_status_recursive db.fuel db₁ (clock + 1) R
      StatusEnum.ARCHIVED (some TsField.archived_at) = .ok (db₁, clock + 2) := by
    rw [show db.fuel = db.dirs.length + 1 from rfl]
    exact cascade_some_leaf db.dirs.length db₁ (clock + 1) R StatusEnum.ARCHIVED
      TsField.archived_at hchild₁ hdocs₁
  have harch : archive_directory db clock R = .ok (db₁, clock + 2,
      { success := true
        message := "Directory '" ++ root.name ++
          "' and all its contents have been archived"
        affected_items := 1 }) := by
    rw [archive_directory, hfind]
    simp only [hstb, Bool.false_eq_true, if_false]
    rw [← hg₁, ← hdb₁, hcas]
  have hfind₁ : db₁.dirs.find? (fun d => d.id == R) = some (g₁ root) := by
    rw [hdb₁, find?_updateDir db R g₁ hg₁id (fun n => n == R), hfind]
    simp only [Option.map_some']
    rw [if_pos hid]
  have hstat₁ : (g₁ root).status ≠ StatusEnum.ACTIVE := by
    intro hcon
    exact StatusEnum.noConfusion hcon
  have hpar₁ : parentNotActive db₁ (g₁ root) = false := by
    unfold parentNotActive
    have hgp : (g₁ root).parent_id = root.parent_id := rfl
    rw [hgp]
    by_cases ht : truthy root.parent_id = true
    · cases hfp : db.dirs.find? (fun d => root.parent_id == some d.id) with
      | none =>
          exfalso
          have hX := hpar
          unfold parentNotActive at hX
          rw [hfp] at hX
          simp [ht] at hX
      | some p =>
          have hX := hpar
          unfold parentNotActive at hX
          rw [hfp] at hX
          simp only [ht, Bool.true_and] at hX
          have hpid : (p.id == R) = false := by
            rw [beq_eq_false_iff_ne]
            intro he
            have hpp : root.parent_id = some p.id := by
              have h := List.find?_some hfp
              simpa using h
            have hpp' : root.parent_id = some R := by
              rw [← he]
              exact hpp
            have hmemc : root.id ∈ childIdsOf db R :=
              mem_childIdsOf.mpr ⟨root, hmem, hpp', rfl⟩
            rw [hchild] at hmemc
            exact List.not_mem_nil root.id hmemc
          have hfp₁ : db₁.dirs.find? (fun d => root.parent_id == some d.id) =
              some p := by
            rw [hdb₁, find?_updateDir db R g₁ hg₁id
              (fun n => root.parent_id == some n), hfp]
            simp only [Option.map_some']
            rw [if_neg ?_]
            rw [hpid]
            exact Bool.false_ne_true
          simp [hfp₁, hX]
    · have ht' : truthy root.parent_id = false := Bool.eq_false_iff.mpr ht
      rw [ht']
      simp
  have hres := @restore_directory_leaf_spec db₁ (clock + 2) R (g₁ root) hfind₁ hstat₁ hpar₁ hchild₁ hdocs₁
  refine ⟨db₁.updateDir R g₂, harch, ?_, ?_, rfl, ?_⟩
  · have hname : (g₁ root).name = root.name := rfl
    rw [hres]
  · rw [hdb₁, updateDir_updateDir db R g₁ g₂ hg₁id]
    rfl
  · rw [hdb₁, updateDir_updateDir db R g₁ g₂ hg₁id,
      find?_updateDir db R (fun d => g₂ (g₁ d)) (fun d => rfl) (fun n => n == R),
      hfind]
    simp only [Option.map_some']
    rw [if_pos hid]

/-- Witness for C7 amended: a single ACTIVE leaf root at clock 0. -/
theorem c7_archive_restore_roundtrip_amended_witness :
    (db_single_active.dirs.find? (fun d => d.id == 1) =
        some { id := 1, name := "a", organization_id := 1, department_id := 1 } ∧
      childIdsOf db_single_active 1 = [] ∧
      parentNotActive db_single_active
        { id := 1, name := "a", organization_id := 1, department_id := 1 } = false) ∧
    (∃ db₂,
      archive_directory db_single_active 0 1 = .ok
        (db_single_active.updateDir 1 (fun d =>
          { d with status := StatusEnum.ARCHIVED, archived_at := some 0 }),
         2,
         { success := true
           message := "Directory 'a' and all its contents have been archived"
           affected_items := 1 }) ∧
      restore_directory
          (db_single_active.updateDir 1 (fun d =>
            { d with status := StatusEnum.ARCHIVED, archived_at := some 0 }))
          2 1 = .ok
        (db₂, 3,
         { success := true
           message := "Directory 'a' and all its contents have been restored"
           affected_items := 1 }) ∧
      db₂.dirs = db_single_active.dirs.map (fun d => if d.id == 1 then
        { d with
            status := StatusEnum.ACTIVE,
            archived_at := none,
            trashed_at := none } else d) ∧
      db₂.docs = db_single_active.docs ∧
      db₂.dirs.find? (fun d => d.id == 1) = some
        { id := 1, name := "a", organization_id := 1, department_id := 1,
          status := StatusEnum.ACTIVE, archived_at := none, trashed_at := none }) :=
  ⟨⟨by decide, by decide, by decide⟩,
    @c7_archive_restore_roundtrip_amended db_single_active 0 1
      { id := 1, name := "a", organization_id := 1, department_id := 1 }
      (by decide) (by decide) (by decide) (by decide) (by decide)⟩

theorem tsok_mutDir {st : StatusEnum} {f : TsField}
    (hco : (st = StatusEnum.ARCHIVED ∧ f = TsField.archived_at) ∨
      (st = StatusEnum.TRASHED ∧ f = TsField.trashed_at))
    (t : Nat) (d : Directory) :
    TsOk (mutDir st f t d).status (mutDir st f t d).archived_at
      (mutDir st f t d).trashed_at := by
  rcases hco with ⟨rfl, rfl⟩ | ⟨rfl, rfl⟩ <;>
    simp [mutDir, Directory.setTs, TsOk]

theorem tsok_mutDoc {st : StatusEnum} {f : TsField}
    (hco : (st = StatusEnum.ARCHIVED ∧ f = TsField.archived_at) ∨
      (st = StatusEnum.TRASHED ∧ f = TsField.trashed_at))
    (t : Nat) (x : Document) :
    TsOk (mutDoc st f t x).status (mutDoc st f t x).archived_at
      (mutDoc st f t x).trashed_at := by
  rcases hco with ⟨rfl, rfl⟩ | ⟨rfl, rfl⟩ <;>
    simp [mutDoc, Document.setTs, TsOk]

theorem dbtsok_of_outcomes {st : StatusEnum} {f : TsField}
    (hco : (st = StatusEnum.ARCHIVED ∧ f = TsField.archived_at) ∨
      (st = StatusEnum.TRASHED ∧ f = TsField.trashed_at))
    {db db' : DB} {lo hi : Nat} {P Q : Nat → Prop}
    (hdirs : List.Forall₂ (DirOutcome st f lo hi P) db.dirs db'.dirs)
    (hdocs : List.Forall₂ (DocOutcome st f lo hi Q) db.docs db'.docs)
    (hinv : DBTsOk db) : DBTsOk db' := by
  constructor
  · intro d' hd'
    obtain ⟨d, hd, hout⟩ := forall2_mem_right hdirs d' hd'
    by_cases hp : P d.id
    · obtain ⟨t, _, _, he⟩ := hout.1 hp
      rw [he]
      exact tsok_mutDir hco t d
    · rw [hout.2 hp]
      exact hinv.1 d hd
  · intro x' hx'
    obtain ⟨x, hx, hout⟩ := forall2_mem_right hdocs x' hx'
    by_cases hp : ∃ q, x.directory_id = some q ∧ Q q
    · obtain ⟨t, _, _, he⟩ := hout.1 hp
      rw [he]
      exact tsok_mutDoc hco t x
    · rw [hout.2 hp]
      exact hinv.2 x hx

theorem dbtsok_docs_map {db : DB} (g : Document → Document)
    (hg : ∀ x ∈ db.docs, TsOk x.status x.archived_at x.trashed_at →
      TsOk (g x).status (g x).archived_at (g x).trashed_at)
    (hinv : DBTsOk db) : DBTsOk { db with docs := db.docs.map g } := by
  constructor
  · intro d hd
    exact hinv.1 d hd
  · intro x' hx'
    obtain ⟨x, hx, rfl⟩ := List.mem_map.mp hx'
    exact hg x hx (hinv.2 x hx)

/-- C5 amended: the two timestamps are not mutually exclusive (see the
counterexample), but the following status-to-timestamp consistency IS
maintained by every single-item lifecycle endpoint and every bulk document
endpoint, on any store satisfying it together with the level invariant: an
ACTIVE row has neither timestamp, an ARCHIVED row has `archived_at` set, and
a TRASHED row has `trashed_at` set (possibly alongside a surviving
`archived_at`). -/
theorem c5_status_timestamp_invariant_amended (db : DB) (clock i : Nat)
    (hl : HLvl (dirSkels db)) (hinv : DBTsOk db) :
    (∀ db' c' r, archive_directory db clock i = .ok (db', c', r) → DBTsOk db') ∧
    (∀ db' c' r, move_directory_to_trash db clock i = .ok (db', c', r) → DBTsOk db') ∧
    (∀ db' c' r, restore_directory db clock i = .ok (db', c', r) → DBTsOk db') ∧
    (∀ db' c' r, archive_document db clock i = .ok (db', c', r) → DBTsOk db') ∧
    (∀ db' c' r, move_document_to_trash db clock i = .ok (db', c', r) → DBTsOk db') ∧
    (∀ db' c' r, restore_document db clock i = .ok (db', c', r) → DBTsOk db') ∧
    (∀ req db' c' r, bulk_archive_documents db clock req = .ok (db', c', r) → DBTsOk db') ∧
    (∀ req db' c' r, bulk_trash_documents db clock req = .ok (db', c', r) → DBTsOk db') ∧
    (∀ req db' c' r, bulk_restore_documents db clock req = .ok (db', c', r) → DBTsOk db') := by
  refine ⟨?_, ?_, ?_, ?_, ?_, ?_, ?_, ?_, ?_⟩
  · intro db' c' r h
    cases hfind : db.dirs.find? (fun d => d.id == i) with
    | none =>
        rw [archive_directory, hfind] at h
        simp at h
    | some root =>
        by_cases hs : root.status = StatusEnum.ACTIVE
        · obtain ⟨db₀, c₀, heq, _, hdirs, hdocs⟩ := archive_directory_spec hl hfind hs
          rw [heq] at h
          simp only [Except.ok.injEq, Prod.mk.injEq] at h
          obtain ⟨h1, _, _⟩ := h
          subst h1
          exact dbtsok_of_outcomes (Or.inl ⟨rfl, rfl⟩) hdirs hdocs hinv
        · rw [archive_directory, hfind] at h
          have hsb : (root.status != StatusEnum.ACTIVE) = true := by
            rw [bne_iff_ne]
            exact hs
          simp [hsb] at h
  · intro db' c' r h
    cases hfind : db.dirs.find? (fun d => d.id == i) with
    | none =>
        rw [move_directory_to_trash, hfind] at h
        simp at h
    | some root =>
        by_cases hs : root.status = StatusEnum.TRASHED
        · rw [move_directory_to_trash, hfind] at h
          simp [beq_iff_eq.mpr hs] at h
        · obtain ⟨db₀, c₀, heq, _, hdirs, hdocs⟩ := move_directory_to_trash_spec hl hfind hs
          rw [heq] at h
          simp only [Except.ok.injEq, Prod.mk.injEq] at h
          obtain ⟨h1, _, _⟩ := h
          subst h1
          exact dbtsok_of_outcomes (Or.inr ⟨rfl, rfl⟩) hdirs hdocs hinv
  · intro db' c' r h
    cases hfind : db.dirs.find? (fun d => d.id == i) with
    | none =>
        rw [restore_directory, hfind] at h
        simp at h
    | some root =>
        rw [restore_directory, hfind] at h
        by_cases hs : (root.status == StatusEnum.ACTIVE) = true
        · simp [hs] at h
        · have hs' : (root.status == StatusEnum.ACTIVE) = false :=
            Bool.eq_false_iff.mpr hs
          by_cases hpp : parentNotActive db root = true
          · simp [hs', hpp] at h
          · have hpp' : parentNotActive db root = false := Bool.eq_false_iff.mpr hpp
            simp only [hs', hpp', Bool.false_eq_true, if_false] at h
            set gr : Directory → Directory := fun d =>
              { d with
                  status := StatusEnum.ACTIVE,
                  archived_at := none,
                  trashed_at := none } with hgr
            set db₁ := db.updateDir i gr with hdb₁
            rw [show db.fuel = db.dirs.length + 1 from rfl] at h
            cases hc : childIdsOf db₁ i with
            | cons j rest =>
                rw [cascade_none_crash_child db.dirs.length db₁ clock i
                  StatusEnum.ACTIVE (by rw [hc]; simp)] at h
                simp at h
            | nil =>
                by_cases hde : (db₁.docs.filter
                    (fun x => x.directory_id == some i)).isEmpty = true
                · rw [cascade_none_ok db.dirs.length db₁ clock i
                    StatusEnum.ACTIVE hc hde] at h
                  simp only [Except.ok.injEq, Prod.mk.injEq] at h
                  obtain ⟨h1, _, _⟩ := h
                  subst h1
                  constructor
                  · intro d' hd'
                    have hdd : d' ∈ db.dirs.map (fun d =>
                        if d.id == i then gr d else d) := hd'
                    obtain ⟨d, hd, rfl⟩ := List.mem_map.mp hdd
                    split
                    · rw [hgr]
                      exact ⟨rfl, rfl⟩
                    · exact hinv.1 d hd
                  · intro x hx
                    exact hinv.2 x hx
                · rw [cascade_none_crash_doc db.dirs.length db₁ clock i
                    StatusEnum.ACTIVE hc hde] at h
                  simp at h
  · intro db' c' r h
    cases hfind : db.docs.find? (fun x => x.id == i) with
    | none =>
        rw [archive_document, hfind] at h
        simp at h
    | some document =>
        rw [archive_document, hfind] at h
        by_cases hs : (document.status != StatusEnum.ACTIVE) = true
        · simp [hs] at h
        · simp only [Bool.eq_false_iff.mpr hs, Bool.false_eq_true, if_false] at h
          simp only [Except.ok.injEq, Prod.mk.injEq] at h
          obtain ⟨h1, _, _⟩ := h
          subst h1
          refine dbtsok_docs_map _ ?_ hinv
          intro x hx hxok
          split
          · exact fun hcon => Option.noConfusion hcon
          · exact hxok
  · intro db' c' r h
    cases hfind : db.docs.find? (fun x => x.id == i) with
    | none =>
        rw [move_document_to_trash, hfind] at h
        simp at h
    | some document =>
        rw [move_document_to_trash, hfind] at h
        by_cases hs : (document.status == StatusEnum.TRASHED) = true
        · simp [hs] at h
        · simp only [Bool.eq_false_iff.mpr hs, Bool.false_eq_true, if_false] at h
          simp only [Except.ok.injEq, Prod.mk.injEq] at h
          obtain ⟨h1, _, _⟩ := h
          subst h1
          refine dbtsok_docs_map _ ?_ hinv
          intro x hx hxok
          split
          · exact fun hcon => Option.noConfusion hcon
          · exact hxok
  · intro db' c' r h
    cases hfind : db.docs.find? (fun x => x.id == i) with
    | none =>
        rw [restore_document, hfind] at h
        simp at h
    | some document =>
        rw [restore_document, hfind] at h
        by_cases hs : (document.status == StatusEnum.ACTIVE) = true
        · simp [hs] at h
        · have hs' : (document.status == StatusEnum.ACTIVE) = false :=
            Bool.eq_false_iff.mpr hs
          simp only [hs', Bool.false_eq_true, if_false] at h
          split at h
          · simp at h
          · simp only [Except.ok.injEq, Prod.mk.injEq] at h
            obtain ⟨h1, _, _⟩ := h
            subst h1
            refine dbtsok_docs_map _ ?_ hinv
            intro x hx hxok
            split
            · exact ⟨rfl, rfl⟩
            · exact hxok
  · intro req db' c' r h
    rw [bulk_archive_documents] at h
    by_cases hty : (req.item_type != "document") = true
    · simp [hty] at h
    · simp only [Bool.eq_false_iff.mpr hty, Bool.false_eq_true, if_false] at h
      simp only [Except.ok.injEq, Prod.mk.injEq] at h
      obtain ⟨h1, _, _⟩ := h
      subst h1
      refine dbtsok_docs_map _ ?_ hinv
      intro x hx hxok
      split
      · exact fun hcon => Option.noConfusion hcon
      · exact hxok
  · intro req db' c' r h
    rw [bulk_trash_documents] at h
    by_cases hty : (req.item_type != "document") = true
    · simp [hty] at h
    · simp only [Bool.eq_false_iff.mpr hty, Bool.false_eq_true, if_false] at h
      simp only [Except.ok.injEq, Prod.mk.injEq] at h
      obtain ⟨h1, _, _⟩ := h
      subst h1
      refine dbtsok_docs_map _ ?_ hinv
      intro x hx hxok
      split
      · exact fun hcon => Option.noConfusion hcon
      · exact hxok
  · intro req db' c' r h
    rw [bulk_restore_documents] at h
    by_cases hty : (req.item_type != "document") = true
    · simp [hty] at h
    · simp only [Bool.eq_false_iff.mpr hty, Bool.false_eq_true, if_false] at h
      simp only [Except.ok.injEq, Prod.mk.injEq] at h
      obtain ⟨h1, _, _⟩ := h
      subst h1
      refine dbtsok_docs_map _ ?_ hinv
      intro x hx hxok
      split
      · exact ⟨rfl, rfl⟩
      · exact hxok

/-- Witness for C5 amended at the one-directory store, whose invariant holds. -/
theorem c5_status_timestamp_invariant_amended_witness :
    (HLvl (dirSkels db_single_active) ∧ DBTsOk db_single_active) ∧
    (∀ db' c' r, archive_directory db_single_active 0 1 = .ok (db', c', r) →
      DBTsOk db') :=
  ⟨⟨by unfold HLvl; decide, by
      constructor
      · intro d hd
        simp only [db_single_active, List.mem_singleton] at hd
        subst hd
        exact ⟨rfl, rfl⟩
      · intro x hx
        simp [db_single_active] at hx⟩,
    (c5_status_timestamp_invariant_amended db_single_active 0 1
      (by unfold HLvl; decide)
      (by
        constructor
        · intro d hd
          simp only [db_single_active, List.mem_singleton] at hd
          subst hd
          exact ⟨rfl, rfl⟩
        · intro x hx
          simp [db_single_active] at hx)).1⟩

/-- C8 amended: scope intersection happens only in the active listing
queries.  (1) `list_directories` is sound with respect to the resolved
allow-lists whenever a membership filter is applied (the list differs from
the sentinel `[0]`); but (2) the archived listing takes no principal at all
and returns every ARCHIVED row regardless of any scope, and (3) the
single-item transition endpoints likewise take no principal: an archive
executes for any ACTIVE target with no scope check involved. -/
theorem c8_scope_enforcement_amended :
    (∀ (db : DB) (u : User) (pid : Option Nat) (b : Bool) (st : StatusEnum)
        (d : Directory), d ∈ list_directories db u pid b st →
      (get_accessible_organizations u db ≠ [0] →
        d.organization_id ∈ get_accessible_organizations u db) ∧
      (get_accessible_departments u db ≠ [0] →
        d.department_id ∈ get_accessible_departments u db)) ∧
    (∀ (db : DB) (d : Directory), d ∈ db.dirs → d.status = StatusEnum.ARCHIVED →
      d ∈ list_archived_directories db) ∧
    (∀ (db : DB) (clock i : Nat) (root : Directory), HLvl (dirSkels db) →
      db.dirs.find? (fun x => x.id == i) = some root →
      root.status = StatusEnum.ACTIVE →
      ∃ db' c' r, archive_directory db clock i = .ok (db', c', r)) := by
  refine ⟨?_, ?_, ?_⟩
  · intro db u pid b st d hd
    simp only [list_directories] at hd
    have hstep : d ∈ (if get_accessible_organizations u db ≠ [0] then
        (db.dirs.filter (fun t => t.parent_id == pid && t.is_directory == b &&
          t.status == st)).filter
          (fun t => (get_accessible_organizations u db).contains t.organization_id)
        else db.dirs.filter (fun t => t.parent_id == pid && t.is_directory == b &&
          t.status == st)) ∧
        (get_accessible_departments u db ≠ [0] →
          d.department_id ∈ get_accessible_departments u db) := by
      by_cases hdc : get_accessible_departments u db ≠ [0]
      · rw [if_pos hdc] at hd
        have h1 := List.mem_filter.mp hd
        refine ⟨h1.1, fun _ => ?_⟩
        have h2 := h1.2
        simpa using h2
      · rw [if_neg hdc] at hd
        exact ⟨hd, fun hc => absurd hc hdc⟩
    obtain ⟨hq1m, hdept⟩ := hstep
    refine ⟨?_, hdept⟩
    intro hoc
    rw [if_pos hoc] at hq1m
    have h1 := List.mem_filter.mp hq1m
    simpa using h1.2
  · intro db d hd hst
    unfold list_archived_directories
    exact List.mem_filter.mpr ⟨hd, by simp [hst]⟩
  · intro db clock i root hl hfind hst
    obtain ⟨db', c', heq, _, _, _⟩ := archive_directory_spec hl hfind hst
    exact ⟨db', c', _, heq⟩

/-- Witness for C8 amended: the root of `db_tree` is visible to a plain user
of its own organization through the filtered listing; the archived `dir_c8`
is returned by the unscoped archived listing; archiving the root of
`db_tree` succeeds with no principal in sight. -/
theorem c8_scope_enforcement_amended_witness :
    (({ id := 1, name := "R", organization_id := 1, department_id := 1 }
        : Directory) ∈ list_directories db_tree u_c8 none true StatusEnum.ACTIVE ∧
      dir_c8 ∈ db_c8.dirs ∧ dir_c8.status = StatusEnum.ARCHIVED ∧
      HLvl (dirSkels db_tree) ∧
      db_tree.dirs.find? (fun x => x.id == 1) =
        some { id := 1, name := "R", organization_id := 1, department_id := 1 }) ∧
    ((get_accessible_organizations u_c8 db_tree ≠ [0] →
        ({ id := 1, name := "R", organization_id := 1, department_id := 1 }
          : Directory).organization_id ∈ get_accessible_organizations u_c8 db_tree) ∧
      (get_accessible_departments u_c8 db_tree ≠ [0] →
        ({ id := 1, name := "R", organization_id := 1, department_id := 1 }
          : Directory).department_id ∈ get_accessible_departments u_c8 db_tree)) ∧
    dir_c8 ∈ list_archived_directories db_c8 ∧
    (∃ db' c' r, archive_directory db_tree 0 1 = .ok (db', c', r)) := by
  obtain ⟨h1, h2, h3⟩ := c8_scope_enforcement_amended
  refine ⟨⟨by decide, by decide, by decide, by unfold HLvl; decide, by decide⟩,
    ?_, ?_, ?_⟩
  · exact h1 db_tree u_c8 none true StatusEnum.ACTIVE _ (by decide)
  · exact h2 db_c8 dir_c8 (by decide) (by decide)
  · exact h3 db_tree 0 1
      { id := 1, name := "R", organization_id := 1, department_id := 1 }
      (by unfold HLvl; decide) (by decide) (by decide)

end SmartDrive
